import Mathlib

/-!
Verification development for the ray-tracing renderer (`src/main.rs`,
`src/cube.rs`, `src/sphere.rs`).

Rust `f32` values are modelled by the type `F`: an exact rational together
with the IEEE special values `+inf`, `-inf` and `NaN`.  Arithmetic follows
the IEEE rules for the special values and is exact on the rational part
(`f32` rounding is not modelled; the claims under verification do not
depend on rounding of literals, and non-dyadic literals such as `1e-4` are
modelled by their decimal rationals).  `f32::sqrt` is modelled by `qSqrt`,
which is exact on perfect squares of rationals and a floor approximation
elsewhere; theorems whose truth depends on the value of a square root carry
an explicit exactness hypothesis.  The transcendental library functions
(`sin`, `cos`, `asin`, `atan2`, `powf`) are external platform intrinsics
and are supplied through the `FloatOps` context, exactly as the texture
machinery is supplied through `TextureManager`.
-/

/-- Rational square root: exact on perfect squares (`qSqrt (p^2/q^2) = p/q`),
a floor approximation otherwise.  Models `f32::sqrt` for nonnegative input. -/
def qSqrt (q : ℚ) : ℚ := (Nat.sqrt (q.num.toNat * q.den) : ℚ) / (q.den : ℚ)

/-- Model of an `f32` value: exact finite rational, infinities, or NaN. -/
inductive F where
  | fin (q : ℚ) : F
  | pinf : F
  | ninf : F
  | nan : F
deriving DecidableEq

namespace F

/-- IEEE addition. -/
def add : F → F → F
  | fin a, fin b => fin (a + b)
  | fin _, pinf => pinf
  | fin _, ninf => ninf
  | pinf, fin _ => pinf
  | ninf, fin _ => ninf
  | pinf, pinf => pinf
  | ninf, ninf => ninf
  | _, _ => nan

/-- IEEE negation. -/
def neg : F → F
  | fin a => fin (-a)
  | pinf => ninf
  | ninf => pinf
  | nan => nan

/-- IEEE subtraction (`a - b = a + (-b)`). -/
def sub (a b : F) : F := add a (neg b)

/-- IEEE multiplication (`0 * inf = NaN`). -/
def mul : F → F → F
  | fin a, fin b => fin (a * b)
  | fin a, pinf => if a = 0 then nan else if 0 < a then pinf else ninf
  | fin a, ninf => if a = 0 then nan else if 0 < a then ninf else pinf
  | pinf, fin b => if b = 0 then nan else if 0 < b then pinf else ninf
  | ninf, fin b => if b = 0 then nan else if 0 < b then ninf else pinf
  | pinf, pinf => pinf
  | pinf, ninf => ninf
  | ninf, pinf => ninf
  | ninf, ninf => pinf
  | _, _ => nan

/-- IEEE division (zero is treated as `+0`; signed zero is not modelled). -/
def div : F → F → F
  | fin a, fin b =>
      if b = 0 then (if a = 0 then nan else if 0 < a then pinf else ninf)
      else fin (a / b)
  | fin _, pinf => fin 0
  | fin _, ninf => fin 0
  | pinf, fin b => if b < 0 then ninf else pinf
  | ninf, fin b => if b < 0 then pinf else ninf
  | _, _ => nan

/-- IEEE `<` as a boolean (false whenever one side is NaN). -/
def ltb : F → F → Bool
  | fin a, fin b => decide (a < b)
  | fin _, pinf => true
  | ninf, fin _ => true
  | ninf, pinf => true
  | _, _ => false

/-- IEEE `<=` as a boolean (false whenever one side is NaN). -/
def leb : F → F → Bool
  | fin a, fin b => decide (a ≤ b)
  | fin _, pinf => true
  | ninf, fin _ => true
  | ninf, pinf => true
  | pinf, pinf => true
  | ninf, ninf => true
  | _, _ => false

/-- IEEE `>` as a boolean. -/
def gtb (a b : F) : Bool := ltb b a

/-- Rust `f32::max`: NaN-ignoring maximum. -/
def maxR (a b : F) : F :=
  if a = nan then b else if b = nan then a else if ltb a b then b else a

/-- Rust `f32::min`: NaN-ignoring minimum. -/
def minR (a b : F) : F :=
  if a = nan then b else if b = nan then a else if ltb b a then b else a

/-- Rust `f32::abs`. -/
def absF : F → F
  | fin a => fin |a|
  | pinf => pinf
  | ninf => pinf
  | nan => nan

/-- Rust `f32::signum` (`+0` counts as positive; signed zero is not modelled). -/
def signumF : F → F
  | fin a => if a < 0 then fin (-1) else fin 1
  | pinf => fin 1
  | ninf => fin (-1)
  | nan => nan

/-- Model of `f32::sqrt` (NaN on negative input). -/
def sqrtF : F → F
  | fin a => if a < 0 then nan else fin (qSqrt a)
  | pinf => pinf
  | ninf => nan
  | nan => nan

/-- Rust `f32::clamp` (propagates NaN). -/
def clampF (x lo hi : F) : F :=
  if ltb x lo then lo else if gtb x hi then hi else x

instance : Add F := ⟨add⟩
instance : Sub F := ⟨sub⟩
instance : Mul F := ⟨mul⟩
instance : Div F := ⟨div⟩
instance : Neg F := ⟨neg⟩

end F

/-- 3D vector over modelled `f32` (raylib `Vector3`, an external math
primitive: add, subtract, scale, componentwise divide, dot, cross, length,
normalize). -/
structure Vec3 where
  x : F
  y : F
  z : F
deriving DecidableEq

namespace Vec3

def add (v w : Vec3) : Vec3 := ⟨v.x + w.x, v.y + w.y, v.z + w.z⟩

def sub (v w : Vec3) : Vec3 := ⟨v.x - w.x, v.y - w.y, v.z - w.z⟩

def negV (v : Vec3) : Vec3 := ⟨-v.x, -v.y, -v.z⟩

/-- Componentwise division (raylib `Div<Vector3>`). -/
def cdiv (v w : Vec3) : Vec3 := ⟨v.x / w.x, v.y / w.y, v.z / w.z⟩

/-- Scale by a scalar (raylib `Mul<f32>`). -/
def smul (v : Vec3) (s : F) : Vec3 := ⟨v.x * s, v.y * s, v.z * s⟩

/-- Divide by a scalar (raylib `Div<f32>`). -/
def sdiv (v : Vec3) (s : F) : Vec3 := ⟨v.x / s, v.y / s, v.z / s⟩

def dot (v w : Vec3) : F := v.x * w.x + v.y * w.y + v.z * w.z

def cross (v w : Vec3) : Vec3 :=
  ⟨v.y * w.z - v.z * w.y, v.z * w.x - v.x * w.z, v.x * w.y - v.y * w.x⟩

def length (v : Vec3) : F := F.sqrtF (dot v v)

def zero : Vec3 := ⟨F.fin 0, F.fin 0, F.fin 0⟩

instance : Add Vec3 := ⟨add⟩
instance : Sub Vec3 := ⟨sub⟩
instance : Neg Vec3 := ⟨negV⟩
instance : HDiv Vec3 Vec3 Vec3 := ⟨cdiv⟩
instance : HMul Vec3 F Vec3 := ⟨smul⟩
instance : HDiv Vec3 F Vec3 := ⟨sdiv⟩

/-- raylib `Vector3::normalized` (zero-length guard: a zero vector is
returned unchanged rather than producing NaN). -/
def normalized (v : Vec3) : Vec3 :=
  let l := v.length
  let l := if l = F.fin 0 then F.fin 1 else l
  let il := F.fin 1 / l
  ⟨v.x * il, v.y * il, v.z * il⟩

end Vec3

/-- The four albedo coefficients `[diffuse, specular, reflectivity,
transparency]` (Rust `[f32; 4]`). -/
structure Float4 where
  a0 : F
  a1 : F
  a2 : F
  a3 : F
deriving DecidableEq

/-- Modelled from the spec: RGBA color with 0-255 channels (raylib `Color`);
`light.rs` is not under `src/`. -/
structure Color where
  r : Nat
  g : Nat
  b : Nat
  a : Nat
deriving DecidableEq

/-- Modelled from the spec: surface material (`material.rs` is not under
`src/`): diffuse color, specular exponent, albedo coefficients, refractive
index, optional texture reference, optional normal-map reference, emissive
color. -/
structure Material where
  diffuse : Vec3
  specular : F
  albedo : Float4
  refractive_index : F
  texture_id : Option String
  normal_map_id : Option String
  emissive : Vec3
deriving DecidableEq

def defaultMat : Material :=
  ⟨Vec3.zero, F.fin 0, ⟨F.fin 0, F.fin 0, F.fin 0, F.fin 0⟩, F.fin 0, none, none, Vec3.zero⟩

/-- Modelled from the spec: result of one ray/primitive test
(`ray_intersect.rs` is not under `src/`): hit point, outward normal,
parametric distance, hit flag, material, surface UV. -/
structure Intersect where
  point : Vec3
  normal : Vec3
  distance : F
  is_intersecting : Bool
  material : Material
  u : F
  v : F
deriving DecidableEq

/-- Modelled from the spec: `Intersect::new` marks the record as a valid hit. -/
def Intersect.new (point normal : Vec3) (distance : F) (material : Material)
    (u v : F) : Intersect :=
  ⟨point, normal, distance, true, material, u, v⟩

/-- Modelled from the spec: the sentinel "no hit" record
(`is_intersecting = false`; the remaining fields are inert defaults). -/
def Intersect.empty : Intersect :=
  ⟨Vec3.zero, Vec3.zero, F.fin 0, false, defaultMat, F.fin 0, F.fin 0⟩

/-- Modelled from the spec: point light (`light.rs` is not under `src/`). -/
structure Light where
  position : Vec3
  color : Color
  intensity : F
deriving DecidableEq

/-- Modelled from the spec: dimensions of a loaded texture resource. -/
structure Texture where
  width : Nat
  height : Nat

/-- Modelled from the spec: the external texture-lookup capability
(`textures.rs` is not under `src/`): lookup by name, pixel sampling,
normal-map sampling. -/
structure TextureManager where
  get_texture : String → Option Texture
  get_pixel_color : String → Nat → Nat → Vec3
  get_normal_from_map : String → Nat → Nat → Option Vec3

/-- External `f32` transcendental intrinsics used by the renderer
(`sin`, `cos`, `asin`, `atan2`, `powf`), supplied as a context in the same
way the texture machinery is. -/
structure FloatOps where
  sin : F → F
  cos : F → F
  asin : F → F
  atan2 : F → F → F
  powf : F → F → F

/-- The value of `std::f32::consts::PI` (exact binary32 value). -/
def piF : F := F.fin (13176795 / 4194304)

/-- Rust `as u32` cast from `f32` (truncating, saturating; NaN casts to 0). -/
def castU32 (x : F) : Nat :=
  match x with
  | F.nan => 0
  | F.ninf => 0
  | F.pinf => 4294967295
  | F.fin q =>
      if q ≤ 0 then 0
      else if (4294967295 : ℚ) ≤ q then 4294967295
      else q.floor.toNat

/-- `src/cube.rs`: axis-aligned cube, `center` plus uniform `size`. -/
structure Cube where
  center : Vec3
  size : F
  material : Material
deriving DecidableEq

/-- `src/sphere.rs`: sphere, `center` plus `radius`. -/
structure Sphere where
  center : Vec3
  radius : F
  material : Material
deriving DecidableEq

/-- `src/cube.rs` line 48-56: the per-axis conditional swap
(`if t_min > t_max { swap }`). -/
def swapIfGt (a b : F) : F × F := if F.gtb a b then (b, a) else (a, b)

/-- `src/cube.rs` lines 40-56: the per-axis slab distance pairs
`(t_min, t_max)` after the conditional swaps. -/
def Cube.tpairs (c : Cube) (ray_origin ray_direction : Vec3) :
    (F × F) × (F × F) × (F × F) :=
  let half_size := c.size * F.fin (1/2)
  let mn := c.center - Vec3.mk half_size half_size half_size
  let mx := c.center + Vec3.mk half_size half_size half_size
  let t_min := (mn - ray_origin) / ray_direction
  let t_max := (mx - ray_origin) / ray_direction
  (swapIfGt t_min.x t_max.x, swapIfGt t_min.y t_max.y, swapIfGt t_min.z t_max.z)

/-- `src/cube.rs` line 58: `t_enter = t_min.x.max(t_min.y).max(t_min.z)`. -/
def Cube.t_enter (c : Cube) (ray_origin ray_direction : Vec3) : F :=
  let p := c.tpairs ray_origin ray_direction
  F.maxR (F.maxR p.1.1 p.2.1.1) p.2.2.1

/-- `src/cube.rs` line 59: `t_exit = t_max.x.min(t_max.y).min(t_max.z)`. -/
def Cube.t_exit (c : Cube) (ray_origin ray_direction : Vec3) : F :=
  let p := c.tpairs ray_origin ray_direction
  F.minR (F.minR p.1.2 p.2.1.2) p.2.2.2

/-- `src/cube.rs` lines 66-74: face normal from the dominant local axis. -/
def cube_face_normal (local_point : Vec3) : Vec3 :=
  let abs_local := Vec3.mk (F.absF local_point.x) (F.absF local_point.y) (F.absF local_point.z)
  if F.gtb abs_local.x abs_local.y && F.gtb abs_local.x abs_local.z then
    Vec3.mk (F.signumF local_point.x) (F.fin 0) (F.fin 0)
  else if F.gtb abs_local.y abs_local.z then
    Vec3.mk (F.fin 0) (F.signumF local_point.y) (F.fin 0)
  else
    Vec3.mk (F.fin 0) (F.fin 0) (F.signumF local_point.z)

/-- `src/cube.rs` lines 12-35: `Cube::get_uv`. -/
def Cube.get_uv (c : Cube) (point normal : Vec3) : F × F :=
  let half_size := c.size * F.fin (1/2)
  let local_point := point - c.center
  let abs_normal := Vec3.mk (F.absF normal.x) (F.absF normal.y) (F.absF normal.z)
  if F.gtb abs_normal.x abs_normal.y && F.gtb abs_normal.x abs_normal.z then
    let u := (local_point.z + half_size) / c.size
    let v := (local_point.y + half_size) / c.size
    (F.clampF u (F.fin 0) (F.fin 1), F.clampF v (F.fin 0) (F.fin 1))
  else if F.gtb abs_normal.y abs_normal.z then
    let u := (local_point.x + half_size) / c.size
    let v := (local_point.z + half_size) / c.size
    (F.clampF u (F.fin 0) (F.fin 1), F.clampF v (F.fin 0) (F.fin 1))
  else
    let u := (local_point.x + half_size) / c.size
    let v := (local_point.y + half_size) / c.size
    (F.clampF u (F.fin 0) (F.fin 1), F.clampF v (F.fin 0) (F.fin 1))

/-- `src/cube.rs` lines 39-82: `Cube::ray_intersect` (slab test). -/
def Cube.ray_intersect (c : Cube) (ray_origin ray_direction : Vec3) : Intersect :=
  let t_enter := c.t_enter ray_origin ray_direction
  let t_exit := c.t_exit ray_origin ray_direction
  if F.ltb t_enter t_exit && F.gtb t_exit (F.fin 0) then
    let t := if F.gtb t_enter (F.fin 0) then t_enter else t_exit
    let point := ray_origin + ray_direction * t
    let local_point := point - c.center
    let normal := cube_face_normal local_point
    let uv := c.get_uv point normal
    Intersect.new point normal t c.material uv.1 uv.2
  else
    Intersect.empty

/-- `src/sphere.rs` lines 13-18: `Sphere::get_uv` (equirectangular). -/
def Sphere.get_uv (ops : FloatOps) (s : Sphere) (point : Vec3) : F × F :=
  let normalized := (point - s.center) / s.radius
  let u := F.fin (1/2) + ops.atan2 normalized.x normalized.z / (F.fin 2 * piF)
  let v := F.fin (1/2) - ops.asin normalized.y / piF
  (u, v)

/-- `src/sphere.rs` lines 23-29: the quadratic discriminant `b*b - 4*a*c`. -/
def Sphere.discriminant (s : Sphere) (ray_origin ray_direction : Vec3) : F :=
  let oc := ray_origin - s.center
  let a := ray_direction.dot ray_direction
  let b := F.fin 2 * oc.dot ray_direction
  let c := oc.dot oc - s.radius * s.radius
  b * b - F.fin 4 * a * c

/-- `src/sphere.rs` lines 22-44: `Sphere::ray_intersect`. -/
def Sphere.ray_intersect (ops : FloatOps) (s : Sphere) (ray_origin ray_direction : Vec3) :
    Intersect :=
  let oc := ray_origin - s.center
  let a := ray_direction.dot ray_direction
  let b := F.fin 2 * oc.dot ray_direction
  let discriminant := s.discriminant ray_origin ray_direction
  if F.gtb discriminant (F.fin 0) then
    let t := (-b - F.sqrtF discriminant) / (F.fin 2 * a)
    if F.gtb t (F.fin 0) then
      let point := ray_origin + ray_direction * t
      let normal := (point - s.center).normalized
      let distance := t
      let uv := s.get_uv ops point
      Intersect.new point normal distance s.material uv.1 uv.2
    else Intersect.empty
  else Intersect.empty

/-- `src/main.rs` line 22: self-intersection bias (`1e-4`, modelled by its
decimal rational). -/
def ORIGIN_BIAS : F := F.fin (1/10000)

/-- `src/main.rs` lines 24-60: `skybox_color`. -/
def skybox_color (ops : FloatOps) (dir : Vec3) (tm : TextureManager) : Vec3 :=
  let d := dir.normalized
  match tm.get_texture "assets/skybox.jpg" with
  | some skybox_texture =>
      let u := F.fin (1/2) + ops.atan2 d.x d.z / (F.fin 2 * piF)
      let v := F.fin (1/2) - ops.asin d.y / piF
      let width := skybox_texture.width
      let height := skybox_texture.height
      let tx := castU32 (u * F.fin (width : ℚ))
      let ty := castU32 (v * F.fin (height : ℚ))
      tm.get_pixel_color "assets/skybox.jpg" tx ty
  | none =>
      let t := (d.y + F.fin 1) * F.fin (1/2)
      let sky_blue : Vec3 := ⟨F.fin (4/10), F.fin (6/10), F.fin 1⟩
      let horizon_white : Vec3 := ⟨F.fin (9/10), F.fin (9/10), F.fin 1⟩
      let cloud_white : Vec3 := ⟨F.fin 1, F.fin 1, F.fin 1⟩
      if F.ltb t (F.fin (3/10)) then
        let k := t / F.fin (3/10)
        horizon_white * (F.fin 1 - k) + sky_blue * k
      else if F.ltb t (F.fin (7/10)) then
        let k := (t - F.fin (3/10)) / F.fin (4/10)
        let cloud_factor := ops.sin (d.x * F.fin 3) * ops.cos (d.z * F.fin 2) * F.fin (1/10)
        let base_color := sky_blue * (F.fin 1 - k) + cloud_white * k
        base_color + ⟨cloud_factor, cloud_factor, cloud_factor⟩
      else sky_blue

/-- `src/main.rs` lines 62-69: `offset_origin`. -/
def offset_origin (intersect : Intersect) (direction : Vec3) : Vec3 :=
  let offset := intersect.normal * ORIGIN_BIAS
  if F.ltb (direction.dot intersect.normal) (F.fin 0) then
    intersect.point - offset
  else
    intersect.point + offset

/-- `src/main.rs` lines 71-73: mirror reflection. -/
def reflect (incident normal : Vec3) : Vec3 :=
  incident - normal * F.fin 2 * (incident.dot normal)

/-- `src/main.rs` lines 75-96: Snell refraction (`None` on total internal
reflection).  The Rust in-place swaps are modelled by the two branches. -/
def refract (incident normal : Vec3) (refractive_index : F) : Option Vec3 :=
  let cosi0 := F.minR (F.maxR (incident.dot normal) (F.fin (-1))) (F.fin 1)
  if F.gtb cosi0 (F.fin 0) then
    let etai := refractive_index
    let etat := F.fin 1
    let n := -normal
    let cosi := cosi0
    let eta := etai / etat
    let k := F.fin 1 - eta * eta * (F.fin 1 - cosi * cosi)
    if F.ltb k (F.fin 0) then none
    else some (incident * eta + n * (eta * cosi - F.sqrtF k))
  else
    let cosi := -cosi0
    let n := normal
    let eta := F.fin 1 / refractive_index
    let k := F.fin 1 - eta * eta * (F.fin 1 - cosi * cosi)
    if F.ltb k (F.fin 0) then none
    else some (incident * eta + n * (eta * cosi - F.sqrtF k))

/-- `src/main.rs` lines 108-115: the shadow-ray loop over the objects
(returns `1.0` at the first blocking intersection, else `0.0`). -/
def shadow_scan (origin dir : Vec3) (light_distance : F) : List Cube → F
  | [] => F.fin 0
  | obj :: rest =>
      let shadow_intersect := obj.ray_intersect origin dir
      if shadow_intersect.is_intersecting && F.ltb shadow_intersect.distance light_distance then
        F.fin 1
      else shadow_scan origin dir light_distance rest

/-- `src/main.rs` lines 98-116: `cast_shadow`. -/
def cast_shadow (intersect : Intersect) (light : Light) (objects : List Cube) : F :=
  let light_dir := (light.position - intersect.point).normalized
  let light_distance := (light.position - intersect.point).length
  let shadow_ray_origin := offset_origin intersect light_dir
  shadow_scan shadow_ray_origin light_dir light_distance objects

/-- `src/main.rs` lines 133-139: the nearest-hit scan step (update the
running record when a hit is strictly closer than the z-buffer). -/
def scanStep (ray_origin ray_direction : Vec3) (acc : Intersect × F) (object : Cube) :
    Intersect × F :=
  let i := object.ray_intersect ray_origin ray_direction
  if i.is_intersecting && F.ltb i.distance acc.2 then (i, i.distance) else acc

/-- `src/main.rs` lines 130-139: linear scan over all objects, z-buffer
seeded at `+inf`. -/
def scanHit (objects : List Cube) (ray_origin ray_direction : Vec3) : Intersect × F :=
  objects.foldl (scanStep ray_origin ray_direction) (Intersect.empty, F.pinf)

/-- `src/main.rs` lines 148-166: shading normal, perturbed by the normal map
when one is referenced (`unwrap` of a loaded texture is modelled by a
default, a path the renderer treats as an upstream precondition violation). -/
def shading_normal (tm : TextureManager) (intersect : Intersect) : Vec3 :=
  let normal := intersect.normal
  match intersect.material.normal_map_id with
  | none => normal
  | some normal_map_path =>
      let texture := (tm.get_texture normal_map_path).getD ⟨0, 0⟩
      let tx := castU32 (intersect.u * F.fin (texture.width : ℚ))
      let ty := castU32 (intersect.v * F.fin (texture.height : ℚ))
      match tm.get_normal_from_map normal_map_path tx ty with
      | none => normal
      | some tex_normal =>
          let tangent := (Vec3.mk normal.y (-normal.x) (F.fin 0)).normalized
          let bitangent := normal.cross tangent
          let nx := tex_normal.x * tangent.x + tex_normal.y * bitangent.x + tex_normal.z * normal.x
          let ny := tex_normal.x * tangent.y + tex_normal.y * bitangent.y + tex_normal.z * normal.y
          let nz := tex_normal.x * tangent.z + tex_normal.y * bitangent.z + tex_normal.z * normal.z
          (Vec3.mk nx ny nz).normalized

/-- `src/main.rs` lines 173-183: texture sample or flat diffuse color. -/
def diffuse_color_of (tm : TextureManager) (intersect : Intersect) : Vec3 :=
  match intersect.material.texture_id with
  | some texture_path =>
      let texture := (tm.get_texture texture_path).getD ⟨0, 0⟩
      let tx := castU32 (intersect.u * F.fin (texture.width : ℚ))
      let ty := castU32 (intersect.v * F.fin (texture.height : ℚ))
      tm.get_pixel_color texture_path tx ty
  | none => intersect.material.diffuse

/-- `src/main.rs` lines 170-171: light intensity after the shadow factor. -/
def light_intensity_at (intersect : Intersect) (light : Light) (objects : List Cube) : F :=
  light.intensity * (F.fin 1 - cast_shadow intersect light objects)

/-- `src/main.rs` lines 185-186: the diffuse term. -/
def diffuse_term (tm : TextureManager) (objects : List Cube) (light : Light)
    (intersect : Intersect) : Vec3 :=
  let light_dir := (light.position - intersect.point).normalized
  let normal := shading_normal tm intersect
  (diffuse_color_of tm intersect) *
    (F.maxR (normal.dot light_dir) (F.fin 0) * light_intensity_at intersect light objects)

/-- `src/main.rs` lines 168, 188-190: the Phong specular term. -/
def specular_term (ops : FloatOps) (tm : TextureManager) (objects : List Cube)
    (light : Light) (ray_origin : Vec3) (intersect : Intersect) : Vec3 :=
  let light_dir := (light.position - intersect.point).normalized
  let view_dir := (ray_origin - intersect.point).normalized
  let normal := shading_normal tm intersect
  let reflect_dir := (reflect (-light_dir) normal).normalized
  let specular_intensity :=
    ops.powf (F.maxR (view_dir.dot reflect_dir) (F.fin 0)) intersect.material.specular *
      light_intensity_at intersect light objects
  let light_color_v3 := Vec3.mk (F.fin (light.color.r : ℚ) / F.fin 255)
    (F.fin (light.color.g : ℚ) / F.fin 255) (F.fin (light.color.b : ℚ) / F.fin 255)
  light_color_v3 * specular_intensity

/-- `src/main.rs` lines 192-193: local Phong color
`diffuse * albedo[0] + specular * albedo[1] + emissive`. -/
def phong_color_of (ops : FloatOps) (tm : TextureManager) (objects : List Cube)
    (light : Light) (ray_origin : Vec3) (intersect : Intersect) : Vec3 :=
  diffuse_term tm objects light intersect * intersect.material.albedo.a0 +
    specular_term ops tm objects light ray_origin intersect * intersect.material.albedo.a1 +
    intersect.material.emissive

/-- `src/main.rs` lines 195-202: the reflection contribution (`recurse` is
the depth-incremented recursive call of `cast_ray`). -/
def reflect_color_of (recurse : Vec3 → Vec3 → Vec3) (ray_direction : Vec3)
    (intersect : Intersect) (normal : Vec3) : Vec3 :=
  let reflectivity := intersect.material.albedo.a2
  if F.gtb reflectivity (F.fin 0) then
    let reflect_dir := (reflect ray_direction normal).normalized
    let reflect_origin := offset_origin intersect reflect_dir
    recurse reflect_origin reflect_dir
  else Vec3.zero

/-- `src/main.rs` lines 204-216: the refraction contribution, falling back
to a reflection recursion on total internal reflection. -/
def refract_color_of (recurse : Vec3 → Vec3 → Vec3) (ray_direction : Vec3)
    (intersect : Intersect) (normal : Vec3) : Vec3 :=
  let transparency := intersect.material.albedo.a3
  if F.gtb transparency (F.fin 0) then
    match refract ray_direction normal intersect.material.refractive_index with
    | some refract_dir =>
        let refract_origin := offset_origin intersect refract_dir
        recurse refract_origin refract_dir
    | none =>
        let reflect_dir := (reflect ray_direction normal).normalized
        let reflect_origin := offset_origin intersect reflect_dir
        recurse reflect_origin reflect_dir
  else Vec3.zero

/-- `src/main.rs` lines 130-218: the body of `cast_ray` below the depth
check, with the recursive depth+1 call abstracted as `recurse`. -/
def castRayBody (recurse : Vec3 → Vec3 → Vec3) (ops : FloatOps)
    (ray_origin ray_direction : Vec3) (objects : List Cube) (light : Light)
    (tm : TextureManager) : Vec3 :=
  let intersect := (scanHit objects ray_origin ray_direction).1
  if !intersect.is_intersecting then skybox_color ops ray_direction tm
  else
    let normal := shading_normal tm intersect
    let phong_color := phong_color_of ops tm objects light ray_origin intersect
    let reflectivity := intersect.material.albedo.a2
    let reflect_color := reflect_color_of recurse ray_direction intersect normal
    let transparency := intersect.material.albedo.a3
    let refract_color := refract_color_of recurse ray_direction intersect normal
    phong_color * (F.fin 1 - reflectivity - transparency) +
      reflect_color * reflectivity + refract_color * transparency

/-- `src/main.rs` lines 118-219: `cast_ray`.  Total: recursion is on
`4 - depth`, which the `depth > 3` guard makes decrease at each
depth+1 recursive call. -/
def cast_ray (ops : FloatOps) (ray_origin ray_direction : Vec3) (objects : List Cube)
    (light : Light) (tm : TextureManager) (depth : Nat) : Vec3 :=
  if _h : 3 < depth then skybox_color ops ray_direction tm
  else
    castRayBody (fun o d => cast_ray ops o d objects light tm (depth + 1))
      ops ray_origin ray_direction objects light tm
termination_by 4 - depth
decreasing_by omega

/-- Spec 4.1 (refinement reference): per-axis slab pair described by the
spec's words — entry/exit distances to the two bounding planes, "swapping
min/max per-axis if the direction component is negative". -/
def slabPairSpec (mn mx o d : F) : F × F :=
  let t1 := (mn - o) / d
  let t2 := (mx - o) / d
  if F.ltb d (F.fin 0) then (t2, t1) else (t1, t2)

/-- Spec 4.1 (refinement reference): overall entry = max of the three
per-axis minima. -/
def spec_entry (c : Cube) (o d : Vec3) : F :=
  let half_size := c.size * F.fin (1/2)
  let mn := c.center - Vec3.mk half_size half_size half_size
  let mx := c.center + Vec3.mk half_size half_size half_size
  F.maxR (F.maxR (slabPairSpec mn.x mx.x o.x d.x).1 (slabPairSpec mn.y mx.y o.y d.y).1)
    (slabPairSpec mn.z mx.z o.z d.z).1

/-- Spec 4.1 (refinement reference): overall exit = min of the three
per-axis maxima. -/
def spec_exit (c : Cube) (o d : Vec3) : F :=
  let half_size := c.size * F.fin (1/2)
  let mn := c.center - Vec3.mk half_size half_size half_size
  let mx := c.center + Vec3.mk half_size half_size half_size
  F.minR (F.minR (slabPairSpec mn.x mx.x o.x d.x).2 (slabPairSpec mn.y mx.y o.y d.y).2)
    (slabPairSpec mn.z mx.z o.z d.z).2

/-- Spec 4.3 (reference predicate): one object blocks the shadow ray —
its intersection from the bias-offset origin toward the light is valid and
strictly closer than the light. -/
def shadow_blocked (intersect : Intersect) (light : Light) (o : Cube) : Bool :=
  let light_dir := (light.position - intersect.point).normalized
  let light_distance := (light.position - intersect.point).length
  let shadow_ray_origin := offset_origin intersect light_dir
  let si := o.ray_intersect shadow_ray_origin light_dir
  si.is_intersecting && F.ltb si.distance light_distance

/-- Fuel-indexed reference form of `cast_ray`: `fuel = 0` forces the
environment color, and each recursion consumes one unit of fuel.
`cast_ray` at `depth` coincides with fuel `4 - depth` (claim C1). -/
def cast_ray_fuel (ops : FloatOps) (objects : List Cube) (light : Light)
    (tm : TextureManager) : Nat → Vec3 → Vec3 → Vec3
  | 0, _, rd => skybox_color ops rd tm
  | n + 1, ro, rd =>
      castRayBody (fun o d => cast_ray_fuel ops objects light tm n o d)
        ops ro rd objects light tm

/-- Trivial transcendental context used to instantiate witnesses. -/
def trivOps : FloatOps :=
  ⟨fun _ => F.fin 0, fun _ => F.fin 0, fun _ => F.fin 0,
   fun _ _ => F.fin 0, fun _ _ => F.fin 0⟩

/-- Texture manager with no textures loaded (procedural-sky fallback). -/
def trivTM : TextureManager := ⟨fun _ => none, fun _ _ _ => Vec3.zero, fun _ _ _ => none⟩

/-- A concrete light for witnesses. -/
def trivLight : Light := ⟨⟨F.fin 0, F.fin 0, F.fin 10⟩, ⟨255, 255, 255, 255⟩, F.fin 1⟩

/-- A plain untextured material for witnesses. -/
def matPlain : Material :=
  ⟨⟨F.fin (1/2), F.fin (1/2), F.fin (1/2)⟩, F.fin 10,
   ⟨F.fin 1, F.fin 0, F.fin 0, F.fin 0⟩, F.fin 0, none, none, Vec3.zero⟩

/-- Unit cube (size 1) centered at the origin (claims C3, C8). -/
def testCubeUnit : Cube := ⟨⟨F.fin 0, F.fin 0, F.fin 0⟩, F.fin 1, matPlain⟩

/-- Size-2 cube centered at the origin (claims C7, C10 cube contrast). -/
def testCube2 : Cube := ⟨⟨F.fin 0, F.fin 0, F.fin 0⟩, F.fin 2, matPlain⟩

/-- Cube sitting between the witness hit point and `trivLight` (claim C6). -/
def testCubeOccluder : Cube := ⟨⟨F.fin 0, F.fin 0, F.fin 2⟩, F.fin 1, matPlain⟩

/-- Unit sphere centered at the origin (claims C9, C10). -/
def testSphereUnit : Sphere := ⟨⟨F.fin 0, F.fin 0, F.fin 0⟩, F.fin 1, matPlain⟩

/-- A concrete hit record used by the C6 witness: the point `(0,0,0)` with
normal `(0,0,1)` and plain material. -/
def testIntersect : Intersect :=
  Intersect.new ⟨F.fin 0, F.fin 0, F.fin 0⟩ ⟨F.fin 0, F.fin 0, F.fin 1⟩ (F.fin 1)
    matPlain (F.fin 0) (F.fin 0)

/-- Transparent material for the C4 witness (albedo transparency 4/5,
refractive index 3/2). -/
def matGlassT : Material :=
  ⟨Vec3.zero, F.fin 0, ⟨F.fin 0, F.fin 0, F.fin 0, F.fin (4/5)⟩, F.fin (3/2),
   none, none, Vec3.zero⟩

/-- A hit record with the transparent material (C4 witness). -/
def glassIntersect : Intersect :=
  Intersect.new ⟨F.fin 0, F.fin 0, F.fin 1⟩ ⟨F.fin 0, F.fin 0, F.fin 1⟩ (F.fin 4)
    matGlassT (F.fin 0) (F.fin 0)

/-! ## Basic facts about the `f32` model and vector algebra -/

theorem F.add_fin (a b : ℚ) : (F.fin a + F.fin b : F) = F.fin (a + b) := rfl

theorem F.neg_fin (a : ℚ) : (-(F.fin a) : F) = F.fin (-a) := rfl

theorem F.sub_fin (a b : ℚ) : (F.fin a - F.fin b : F) = F.fin (a - b) := by
  rw [sub_eq_add_neg a b]
  rfl

theorem F.mul_fin (a b : ℚ) : (F.fin a * F.fin b : F) = F.fin (a * b) := rfl

theorem F.div_fin {b : ℚ} (a : ℚ) (h : b ≠ 0) :
    (F.fin a / F.fin b : F) = F.fin (a / b) := by
  show F.div _ _ = _
  simp [F.div, h]

theorem F.ltb_fin (a b : ℚ) : F.ltb (F.fin a) (F.fin b) = decide (a < b) := rfl

theorem F.leb_fin (a b : ℚ) : F.leb (F.fin a) (F.fin b) = decide (a ≤ b) := rfl

theorem F.gtb_fin (a b : ℚ) : F.gtb (F.fin a) (F.fin b) = decide (b < a) := rfl

theorem F.ltb_false_of_leb {a b : F} (h : F.leb a b = true) : F.ltb b a = false := by
  cases a <;> cases b <;> simp_all [F.leb, F.ltb]

theorem F.maxR_fin (a b : ℚ) : F.maxR (F.fin a) (F.fin b) = F.fin (max a b) := by
  rcases le_or_lt a b with h | h
  · rcases eq_or_lt_of_le h with h | h <;>
      simp [F.maxR, F.ltb, max_eq_right, h.le, h]
  · simp [F.maxR, F.ltb, not_lt_of_gt h, max_eq_left h.le]

theorem F.minR_fin (a b : ℚ) : F.minR (F.fin a) (F.fin b) = F.fin (min a b) := by
  rcases le_or_lt b a with h | h
  · rcases eq_or_lt_of_le h with h | h
    · simp [F.minR, F.ltb, h, min_eq_left h.le]
    · simp [F.minR, F.ltb, h, min_eq_right h.le]
  · simp [F.minR, F.ltb, not_lt_of_gt h, min_eq_left h.le]

/-! ## C1: depth cap and termination of `cast_ray` -/

theorem cast_ray_eq_fuel (ops : FloatOps) (objects : List Cube) (light : Light)
    (tm : TextureManager) :
    ∀ (n : Nat) (ro rd : Vec3) (depth : Nat), 4 - depth = n →
      cast_ray ops ro rd objects light tm depth =
        cast_ray_fuel ops objects light tm n ro rd := by
  intro n
  induction n with
  | zero =>
      intro ro rd depth h
      have hd : 3 < depth := by omega
      rw [cast_ray.eq_def]
      simp [hd, cast_ray_fuel]
  | succ n ih =>
      intro ro rd depth h
      have hd : ¬ 3 < depth := by omega
      rw [cast_ray.eq_def]
      simp only [hd, dite_false]
      show castRayBody _ ops ro rd objects light tm =
        castRayBody _ ops ro rd objects light tm
      congr 1
      funext o d
      exact ih o d (depth + 1) (by omega)

/-- C1: `cast_ray` is total; with `depth > 3` it immediately returns the
environment (skybox) color of the ray direction, every recursive call
passes `depth + 1`, and the whole recursion coincides with the
fuel-indexed form at fuel `4 - depth` — hence at most 4 working levels
(depth 0..3) before forced termination. -/
theorem cast_ray_depth_capped (ops : FloatOps) (tm : TextureManager) (light : Light)
    (objects : List Cube) (ro rd : Vec3) (depth : Nat) :
    (3 < depth → cast_ray ops ro rd objects light tm depth = skybox_color ops rd tm) ∧
    cast_ray ops ro rd objects light tm depth =
      cast_ray_fuel ops objects light tm (4 - depth) ro rd := by
  constructor
  · intro hd
    rw [cast_ray.eq_def]
    simp [hd]
  · exact cast_ray_eq_fuel ops objects light tm (4 - depth) ro rd depth rfl

theorem cast_ray_depth_capped_witness :
    cast_ray trivOps ⟨F.fin 0, F.fin 0, F.fin 0⟩ ⟨F.fin 0, F.fin 1, F.fin 0⟩ []
        trivLight trivTM 4 =
      skybox_color trivOps ⟨F.fin 0, F.fin 1, F.fin 0⟩ trivTM :=
  (cast_ray_depth_capped trivOps trivTM trivLight [] ⟨F.fin 0, F.fin 0, F.fin 0⟩
      ⟨F.fin 0, F.fin 1, F.fin 0⟩ 4).1 (by decide)

/-! ## C8: axis-aligned cube hit with infinite slab bounds -/

/-- C8: the ray from `(0,0,5)` toward `(0,0,-1)` hits the origin-centered
unit cube at distance `4.5` with normal `(0,0,1)`, and the zero x/y
direction components produce the `(-inf, +inf)` slab bounds that flow
through the max/min chain unspecial-cased. -/
theorem cube_axis_aligned_hit :
    (testCubeUnit.ray_intersect ⟨F.fin 0, F.fin 0, F.fin 5⟩
        ⟨F.fin 0, F.fin 0, F.fin (-1)⟩).is_intersecting = true ∧
    (testCubeUnit.ray_intersect ⟨F.fin 0, F.fin 0, F.fin 5⟩
        ⟨F.fin 0, F.fin 0, F.fin (-1)⟩).distance = F.fin (9/2) ∧
    (testCubeUnit.ray_intersect ⟨F.fin 0, F.fin 0, F.fin 5⟩
        ⟨F.fin 0, F.fin 0, F.fin (-1)⟩).normal = ⟨F.fin 0, F.fin 0, F.fin 1⟩ ∧
    (testCubeUnit.tpairs ⟨F.fin 0, F.fin 0, F.fin 5⟩
        ⟨F.fin 0, F.fin 0, F.fin (-1)⟩).1 = (F.ninf, F.pinf) ∧
    (testCubeUnit.tpairs ⟨F.fin 0, F.fin 0, F.fin 5⟩
        ⟨F.fin 0, F.fin 0, F.fin (-1)⟩).2.1 = (F.ninf, F.pinf) := by
  with_unfolding_all decide

/-! ## C9: sphere hit correctness and the discriminant sentinel -/

/-- C9: the ray from `(0,0,5)` toward `(0,0,-1)` hits the origin-centered
unit sphere at distance exactly `4` with unit outward normal `(0,0,1)`
(the smaller strictly-positive quadratic root), and any ray whose
discriminant is `≤ 0` yields the no-hit sentinel. -/
theorem sphere_hit_and_sentinel :
    (∀ ops : FloatOps,
      (Sphere.ray_intersect ops testSphereUnit ⟨F.fin 0, F.fin 0, F.fin 5⟩
          ⟨F.fin 0, F.fin 0, F.fin (-1)⟩).is_intersecting = true ∧
      (Sphere.ray_intersect ops testSphereUnit ⟨F.fin 0, F.fin 0, F.fin 5⟩
          ⟨F.fin 0, F.fin 0, F.fin (-1)⟩).distance = F.fin 4 ∧
      (Sphere.ray_intersect ops testSphereUnit ⟨F.fin 0, F.fin 0, F.fin 5⟩
          ⟨F.fin 0, F.fin 0, F.fin (-1)⟩).normal = ⟨F.fin 0, F.fin 0, F.fin 1⟩) ∧
    (∀ (ops : FloatOps) (s : Sphere) (o d : Vec3),
      F.leb (s.discriminant o d) (F.fin 0) = true →
      Sphere.ray_intersect ops s o d = Intersect.empty) := by
  constructor
  · intro ops
    refine ⟨?_, ?_, ?_⟩ <;> with_unfolding_all rfl
  · intro ops s o d h
    have hg : F.gtb (s.discriminant o d) (F.fin 0) = false := F.ltb_false_of_leb h
    unfold Sphere.ray_intersect
    simp [F.gtb] at hg
    simp [F.gtb, hg]

theorem sphere_hit_and_sentinel_witness :
    Sphere.ray_intersect trivOps testSphereUnit ⟨F.fin 5, F.fin 0, F.fin 0⟩
        ⟨F.fin 0, F.fin 0, F.fin 1⟩ = Intersect.empty :=
  sphere_hit_and_sentinel.2 trivOps testSphereUnit ⟨F.fin 5, F.fin 0, F.fin 0⟩
    ⟨F.fin 0, F.fin 0, F.fin 1⟩ (by with_unfolding_all decide)

/-! ## C3: cube edge/corner tie-breaking -/

/-- C3 counterexample: the diagonal ray from `(3/2, 3/10, 3/2)` along
`(-1, 0, -1)` hits the origin-centered unit cube on the edge point
`(1/2, 3/10, 1/2)` where `|x| = |z| > |y|`; the code selects the z-axis
normal `(0,0,1)`, not the first-checked tied axis x — refuting the claimed
x > y > z tie priority. -/
theorem cube_tie_break_counterexample :
    (testCubeUnit.ray_intersect ⟨F.fin (3/2), F.fin (3/10), F.fin (3/2)⟩
        ⟨F.fin (-1), F.fin 0, F.fin (-1)⟩).is_intersecting = true ∧
    F.absF ((testCubeUnit.ray_intersect ⟨F.fin (3/2), F.fin (3/10), F.fin (3/2)⟩
        ⟨F.fin (-1), F.fin 0, F.fin (-1)⟩).point - testCubeUnit.center).x =
      F.absF ((testCubeUnit.ray_intersect ⟨F.fin (3/2), F.fin (3/10), F.fin (3/2)⟩
        ⟨F.fin (-1), F.fin 0, F.fin (-1)⟩).point - testCubeUnit.center).z ∧
    F.ltb (F.absF ((testCubeUnit.ray_intersect ⟨F.fin (3/2), F.fin (3/10), F.fin (3/2)⟩
        ⟨F.fin (-1), F.fin 0, F.fin (-1)⟩).point - testCubeUnit.center).y)
      (F.absF ((testCubeUnit.ray_intersect ⟨F.fin (3/2), F.fin (3/10), F.fin (3/2)⟩
        ⟨F.fin (-1), F.fin 0, F.fin (-1)⟩).point - testCubeUnit.center).x) = true ∧
    (testCubeUnit.ray_intersect ⟨F.fin (3/2), F.fin (3/10), F.fin (3/2)⟩
        ⟨F.fin (-1), F.fin 0, F.fin (-1)⟩).normal = ⟨F.fin 0, F.fin 0, F.fin 1⟩ ∧
    (testCubeUnit.ray_intersect ⟨F.fin (3/2), F.fin (3/10), F.fin (3/2)⟩
        ⟨F.fin (-1), F.fin 0, F.fin (-1)⟩).normal ≠ ⟨F.fin 1, F.fin 0, F.fin 0⟩ := by
  with_unfolding_all decide

/-- C3 (amended): with the code's strict comparisons, an axis wins only
when strictly dominant, so on exact ties the *later*-checked axis wins
(y beats x; z beats x, y, or both), for the face-normal selection; and the
UV-face selection follows the axis of the resulting one-hot normal. -/
theorem cube_tie_break_later_axis :
    (∀ a b c : ℚ, |a| = |b| → |c| < |b| →
      cube_face_normal ⟨F.fin a, F.fin b, F.fin c⟩ =
        ⟨F.fin 0, F.signumF (F.fin b), F.fin 0⟩) ∧
    (∀ a b c : ℚ, |a| = |c| → |b| ≤ |c| →
      cube_face_normal ⟨F.fin a, F.fin b, F.fin c⟩ =
        ⟨F.fin 0, F.fin 0, F.signumF (F.fin c)⟩) ∧
    (∀ a b c : ℚ, |b| = |c| → |a| ≤ |c| →
      cube_face_normal ⟨F.fin a, F.fin b, F.fin c⟩ =
        ⟨F.fin 0, F.fin 0, F.signumF (F.fin c)⟩) ∧
    (∀ (cu : Cube) (p : Vec3) (s : ℚ), s = 1 ∨ s = -1 →
      cu.get_uv p ⟨F.fin 0, F.fin s, F.fin 0⟩ =
        (F.clampF (((p - cu.center).x + cu.size * F.fin (1/2)) / cu.size) (F.fin 0) (F.fin 1),
         F.clampF (((p - cu.center).z + cu.size * F.fin (1/2)) / cu.size) (F.fin 0) (F.fin 1))) ∧
    (∀ (cu : Cube) (p : Vec3) (s : ℚ), s = 1 ∨ s = -1 →
      cu.get_uv p ⟨F.fin 0, F.fin 0, F.fin s⟩ =
        (F.clampF (((p - cu.center).x + cu.size * F.fin (1/2)) / cu.size) (F.fin 0) (F.fin 1),
         F.clampF (((p - cu.center).y + cu.size * F.fin (1/2)) / cu.size) (F.fin 0) (F.fin 1))) := by
  refine ⟨?_, ?_, ?_, ?_, ?_⟩
  · intro a b c h1 h2
    simp [cube_face_normal, F.gtb, F.ltb, F.absF, h1, h2]
  · intro a b c h1 h2
    simp [cube_face_normal, F.gtb, F.ltb, F.absF, h1, not_lt.mpr h2]
  · intro a b c h1 h2
    simp [cube_face_normal, F.gtb, F.ltb, F.absF, h1, not_lt.mpr h2]
  · intro cu p s hs
    rcases hs with hs | hs <;> subst hs <;>
      norm_num [Cube.get_uv, F.gtb, F.ltb, F.absF]
  · intro cu p s hs
    rcases hs with hs | hs <;> subst hs <;>
      norm_num [Cube.get_uv, F.gtb, F.ltb, F.absF]

theorem cube_tie_break_later_axis_witness :
    cube_face_normal ⟨F.fin 1, F.fin (-1), F.fin 0⟩ =
      ⟨F.fin 0, F.signumF (F.fin (-1)), F.fin 0⟩ :=
  cube_tie_break_later_axis.1 1 (-1) 0 (by norm_num) (by norm_num)

/-! ## C6: binary shadow occlusion -/

theorem shadow_scan_eq_any (origin dir : Vec3) (ld : F) (objects : List Cube) :
    shadow_scan origin dir ld objects =
      if objects.any (fun o => (o.ray_intersect origin dir).is_intersecting &&
          F.ltb (o.ray_intersect origin dir).distance ld) then F.fin 1 else F.fin 0 := by
  induction objects with
  | nil => rfl
  | cons o rest ih =>
      simp only [shadow_scan, List.any_cons]
      by_cases h : ((o.ray_intersect origin dir).is_intersecting &&
          F.ltb (o.ray_intersect origin dir).distance ld) = true
      · simp [h]
      · simp [h, ih]

theorem cast_shadow_eq_any (i : Intersect) (l : Light) (objects : List Cube) :
    cast_shadow i l objects =
      if objects.any (shadow_blocked i l) then F.fin 1 else F.fin 0 := by
  unfold cast_shadow shadow_blocked
  rw [shadow_scan_eq_any]

/-- C6: `cast_shadow` returns exactly `1.0` when some object's intersection
along the bias-offset shadow ray toward the light lies strictly closer than
the light, exactly `0.0` otherwise; in particular the empty object list
gives exactly `0.0`, and enlarging the object list can only keep or raise
the result. -/
theorem cast_shadow_binary_occlusion (i : Intersect) (light : Light) :
    cast_shadow i light [] = F.fin 0 ∧
    (∀ objects : List Cube,
      ((∃ o ∈ objects, shadow_blocked i light o = true) →
        cast_shadow i light objects = F.fin 1) ∧
      ((∀ o ∈ objects, shadow_blocked i light o = false) →
        cast_shadow i light objects = F.fin 0)) ∧
    (∀ objects objects' : List Cube, objects ⊆ objects' →
      F.leb (cast_shadow i light objects) (cast_shadow i light objects') = true) := by
  refine ⟨rfl, ?_, ?_⟩
  · intro objects
    constructor
    · intro hex
      rw [cast_shadow_eq_any, if_pos]
      simpa [List.any_eq_true] using hex
    · intro hall
      rw [cast_shadow_eq_any, if_neg]
      simp only [List.any_eq_true, not_exists]
      intro o hc
      exact absurd hc.2 (by simp [hall o hc.1])
  · intro objects objects' hsub
    rw [cast_shadow_eq_any, cast_shadow_eq_any]
    by_cases h : objects.any (shadow_blocked i light) = true
    · have h' : objects'.any (shadow_blocked i light) = true := by
        rw [List.any_eq_true] at h ⊢
        obtain ⟨o, ho, hb⟩ := h
        exact ⟨o, hsub ho, hb⟩
      rw [if_pos h, if_pos h']
      norm_num [F.leb_fin]
    · rw [if_neg h]
      by_cases h' : objects'.any (shadow_blocked i light) = true
      · rw [if_pos h']
        norm_num [F.leb_fin]
      · rw [if_neg h']
        norm_num [F.leb_fin]

theorem cast_shadow_binary_occlusion_witness :
    cast_shadow testIntersect trivLight [testCubeOccluder] = F.fin 1 :=
  ((cast_shadow_binary_occlusion testIntersect trivLight).2.1 [testCubeOccluder]).1
    ⟨testCubeOccluder, List.mem_singleton.mpr rfl, by with_unfolding_all decide⟩

/-! ## C7: the final color composition formula -/

/-- C7: on a hit at admissible depth, the color returned by `cast_ray` is
exactly `phong * (1 - reflectivity - transparency) + reflectColor *
reflectivity + refractColor * transparency` with `reflectivity = albedo[2]`,
`transparency = albedo[3]`, no renormalization of the weights, and
`phong = diffuse * albedo[0] + specular * albedo[1] + emissive`. -/
theorem cast_ray_color_composition (ops : FloatOps) (tm : TextureManager) (light : Light)
    (objects : List Cube) (ro rd : Vec3) (depth : Nat)
    (hdepth : depth ≤ 3)
    (hhit : (scanHit objects ro rd).1.is_intersecting = true) :
    cast_ray ops ro rd objects light tm depth =
      phong_color_of ops tm objects light ro (scanHit objects ro rd).1 *
          (F.fin 1 - (scanHit objects ro rd).1.material.albedo.a2 -
            (scanHit objects ro rd).1.material.albedo.a3) +
        reflect_color_of (fun o d => cast_ray ops o d objects light tm (depth + 1)) rd
            (scanHit objects ro rd).1 (shading_normal tm (scanHit objects ro rd).1) *
          (scanHit objects ro rd).1.material.albedo.a2 +
        refract_color_of (fun o d => cast_ray ops o d objects light tm (depth + 1)) rd
            (scanHit objects ro rd).1 (shading_normal tm (scanHit objects ro rd).1) *
          (scanHit objects ro rd).1.material.albedo.a3 ∧
    phong_color_of ops tm objects light ro (scanHit objects ro rd).1 =
      diffuse_term tm objects light (scanHit objects ro rd).1 *
          (scanHit objects ro rd).1.material.albedo.a0 +
        specular_term ops tm objects light ro (scanHit objects ro rd).1 *
          (scanHit objects ro rd).1.material.albedo.a1 +
        (scanHit objects ro rd).1.material.emissive := by
  constructor
  · have hd : ¬ 3 < depth := by omega
    rw [cast_ray.eq_def]
    simp only [hd, dite_false]
    unfold castRayBody
    simp only [hhit, Bool.not_true, Bool.false_eq_true, if_false]
  · rfl

theorem cast_ray_color_composition_witness :
    cast_ray trivOps ⟨F.fin 0, F.fin 0, F.fin 5⟩ ⟨F.fin 0, F.fin 0, F.fin (-1)⟩ [testCube2]
        trivLight trivTM 0 =
      phong_color_of trivOps trivTM [testCube2] trivLight ⟨F.fin 0, F.fin 0, F.fin 5⟩
          (scanHit [testCube2] ⟨F.fin 0, F.fin 0, F.fin 5⟩ ⟨F.fin 0, F.fin 0, F.fin (-1)⟩).1 *
          (F.fin 1 -
            (scanHit [testCube2] ⟨F.fin 0, F.fin 0, F.fin 5⟩
              ⟨F.fin 0, F.fin 0, F.fin (-1)⟩).1.material.albedo.a2 -
            (scanHit [testCube2] ⟨F.fin 0, F.fin 0, F.fin 5⟩
              ⟨F.fin 0, F.fin 0, F.fin (-1)⟩).1.material.albedo.a3) +
        reflect_color_of
            (fun o d => cast_ray trivOps o d [testCube2] trivLight trivTM 1)
            ⟨F.fin 0, F.fin 0, F.fin (-1)⟩
            (scanHit [testCube2] ⟨F.fin 0, F.fin 0, F.fin 5⟩ ⟨F.fin 0, F.fin 0, F.fin (-1)⟩).1
            (shading_normal trivTM
              (scanHit [testCube2] ⟨F.fin 0, F.fin 0, F.fin 5⟩
                ⟨F.fin 0, F.fin 0, F.fin (-1)⟩).1) *
          (scanHit [testCube2] ⟨F.fin 0, F.fin 0, F.fin 5⟩
            ⟨F.fin 0, F.fin 0, F.fin (-1)⟩).1.material.albedo.a2 +
        refract_color_of
            (fun o d => cast_ray trivOps o d [testCube2] trivLight trivTM 1)
            ⟨F.fin 0, F.fin 0, F.fin (-1)⟩
            (scanHit [testCube2] ⟨F.fin 0, F.fin 0, F.fin 5⟩ ⟨F.fin 0, F.fin 0, F.fin (-1)⟩).1
            (shading_normal trivTM
              (scanHit [testCube2] ⟨F.fin 0, F.fin 0, F.fin 5⟩
                ⟨F.fin 0, F.fin 0, F.fin (-1)⟩).1) *
          (scanHit [testCube2] ⟨F.fin 0, F.fin 0, F.fin 5⟩
            ⟨F.fin 0, F.fin 0, F.fin (-1)⟩).1.material.albedo.a3 :=
  (cast_ray_color_composition trivOps trivTM trivLight [testCube2]
      ⟨F.fin 0, F.fin 0, F.fin 5⟩ ⟨F.fin 0, F.fin 0, F.fin (-1)⟩ 0 (by decide)
      (by with_unfolding_all decide)).1

theorem Vec3.dot_fin (a b c d e f : ℚ) :
    Vec3.dot ⟨F.fin a, F.fin b, F.fin c⟩ ⟨F.fin d, F.fin e, F.fin f⟩ =
      F.fin (a*d + b*e + c*f) := rfl

theorem Vec3.smul_mk (x y z : F) (s : F) :
    (Vec3.mk x y z * s : Vec3) = ⟨x * s, y * s, z * s⟩ := rfl

theorem Vec3.add_mk (a b c d e f : F) :
    (Vec3.mk a b c + Vec3.mk d e f : Vec3) = ⟨a + d, b + e, c + f⟩ := rfl

theorem Vec3.sub_mk (a b c d e f : F) :
    (Vec3.mk a b c - Vec3.mk d e f : Vec3) = ⟨a - d, b - e, c - f⟩ := rfl

theorem Vec3.neg_mk (a b c : F) : (-(Vec3.mk a b c) : Vec3) = ⟨-a, -b, -c⟩ := rfl

theorem cauchy_schwarz_unit (x1 x2 x3 y1 y2 y3 : ℚ)
    (hx : x1^2 + x2^2 + x3^2 = 1) (hy : y1^2 + y2^2 + y3^2 = 1) :
    (x1*y1 + x2*y2 + x3*y3)^2 ≤ 1 := by
  nlinarith [sq_nonneg (x1*y2 - x2*y1), sq_nonneg (x1*y3 - x3*y1), sq_nonneg (x2*y3 - x3*y2)]

theorem refract_component_identity (ix iy iz nx ny nz e s σ : ℚ)
    (hI : ix^2 + iy^2 + iz^2 = 1) (hN : nx^2 + ny^2 + nz^2 = 1) (hσ : σ*σ = 1)
    (hs : s*s = 1 - e^2*(1 - (ix*nx+iy*ny+iz*nz)^2)) :
    (e*ix - nx*(e*(ix*nx+iy*ny+iz*nz)+σ*s))^2 +
      (e*iy - ny*(e*(ix*nx+iy*ny+iz*nz)+σ*s))^2 +
      (e*iz - nz*(e*(ix*nx+iy*ny+iz*nz)+σ*s))^2 = 1 := by
  linear_combination (e^2) * hI + (e*(ix*nx+iy*ny+iz*nz)+σ*s)^2 * hN + s^2*hσ + hs

theorem refract_tangential_identity (ix iy iz nx ny nz e s σ : ℚ)
    (hN : nx^2 + ny^2 + nz^2 = 1) :
    (e*ix - nx*(e*(ix*nx+iy*ny+iz*nz)+σ*s)) -
        nx*((e*ix - nx*(e*(ix*nx+iy*ny+iz*nz)+σ*s))*nx +
            (e*iy - ny*(e*(ix*nx+iy*ny+iz*nz)+σ*s))*ny +
            (e*iz - nz*(e*(ix*nx+iy*ny+iz*nz)+σ*s))*nz) =
      (ix - nx*(ix*nx+iy*ny+iz*nz))*e := by
  linear_combination (nx*(e*(ix*nx+iy*ny+iz*nz)+σ*s)) * hN

set_option maxHeartbeats 1600000 in
/-- C4: for unit incident and unit normal, `refract` returns `none` exactly
when total internal reflection occurs (the discriminant
`k = 1 - eta^2*(1 - cos^2)` is negative, with `eta` chosen by the
entering/exiting branch); for sub-critical angles (and an exactly
representable square root) it returns a direction of unit length whose
tangential component is `eta` times the incident tangential component
(Snell); and when `refract` returns `none`, the refraction contribution of
`cast_ray` recurses along the mirror-reflected direction instead. -/
theorem refract_tir_spec :
    (∀ ix iy iz nx ny nz r : ℚ, ix^2 + iy^2 + iz^2 = 1 → nx^2 + ny^2 + nz^2 = 1 → 0 < r →
      (refract ⟨F.fin ix, F.fin iy, F.fin iz⟩ ⟨F.fin nx, F.fin ny, F.fin nz⟩ (F.fin r) = none ↔
        1 - (if 0 < ix*nx + iy*ny + iz*nz then r else 1/r)^2 *
          (1 - (ix*nx + iy*ny + iz*nz)^2) < 0)) ∧
    (∀ (ix iy iz nx ny nz r : ℚ) (v : Vec3),
      ix^2 + iy^2 + iz^2 = 1 → nx^2 + ny^2 + nz^2 = 1 → 0 < r →
      qSqrt (1 - (if 0 < ix*nx + iy*ny + iz*nz then r else 1/r)^2 *
          (1 - (ix*nx + iy*ny + iz*nz)^2)) *
        qSqrt (1 - (if 0 < ix*nx + iy*ny + iz*nz then r else 1/r)^2 *
          (1 - (ix*nx + iy*ny + iz*nz)^2)) =
        1 - (if 0 < ix*nx + iy*ny + iz*nz then r else 1/r)^2 *
          (1 - (ix*nx + iy*ny + iz*nz)^2) →
      refract ⟨F.fin ix, F.fin iy, F.fin iz⟩ ⟨F.fin nx, F.fin ny, F.fin nz⟩ (F.fin r) =
        some v →
      Vec3.dot v v = F.fin 1 ∧
      v - (⟨F.fin nx, F.fin ny, F.fin nz⟩ : Vec3) *
          (Vec3.dot v ⟨F.fin nx, F.fin ny, F.fin nz⟩) =
        ((⟨F.fin ix, F.fin iy, F.fin iz⟩ : Vec3) -
            (⟨F.fin nx, F.fin ny, F.fin nz⟩ : Vec3) *
              (Vec3.dot ⟨F.fin ix, F.fin iy, F.fin iz⟩ ⟨F.fin nx, F.fin ny, F.fin nz⟩)) *
          F.fin (if 0 < ix*nx + iy*ny + iz*nz then r else 1/r)) ∧
    (∀ (ops : FloatOps) (objects : List Cube) (light : Light) (tm : TextureManager)
        (depth : Nat) (rd : Vec3) (i : Intersect) (normal : Vec3),
      F.gtb i.material.albedo.a3 (F.fin 0) = true →
      refract rd normal i.material.refractive_index = none →
      refract_color_of (fun o d => cast_ray ops o d objects light tm (depth + 1)) rd i normal =
        cast_ray ops (offset_origin i ((reflect rd normal).normalized))
          ((reflect rd normal).normalized) objects light tm (depth + 1)) := by
  refine ⟨?_, ?_, ?_⟩
  · intro ix iy iz nx ny nz r hI hN hr
    have hcs := cauchy_schwarz_unit ix iy iz nx ny nz hI hN
    set dq := ix*nx + iy*ny + iz*nz with hdq
    have habs : |dq| ≤ 1 := by nlinarith [abs_nonneg dq, sq_abs dq]
    have h1 : max dq (-1) = dq := max_eq_left (by linarith [(abs_le.mp habs).1])
    have h2 : min dq 1 = dq := min_eq_left (by linarith [(abs_le.mp habs).2])
    unfold refract
    rw [Vec3.dot_fin, ← hdq, F.maxR_fin, F.minR_fin, h1, h2]
    by_cases h0 : 0 < dq
    · simp only [F.gtb_fin, decide_eq_true_eq, h0, if_true, if_pos h0]
      have he : (F.fin r / F.fin 1 : F) = F.fin r := by
        rw [F.div_fin r one_ne_zero, div_one]
      rw [he]
      simp only [F.mul_fin, F.sub_fin]
      by_cases hk : (1 : ℚ) - r * r * (1 - dq * dq) < 0
      · simp only [F.ltb_fin, decide_eq_true_eq, hk, if_true]
        constructor
        · intro _
          nlinarith [hk]
        · intro _
          trivial
      · simp only [F.ltb_fin, decide_eq_true_eq, hk, if_false]
        constructor
        · intro hcon
          exact absurd hcon (by simp)
        · intro hlt
          exact absurd hlt (by nlinarith [hk])
    · simp only [F.gtb_fin, decide_eq_true_eq, h0, if_false, if_neg h0]
      have hrne : r ≠ 0 := ne_of_gt hr
      rw [F.div_fin 1 hrne]
      simp only [F.neg_fin, F.mul_fin, F.sub_fin]
      by_cases hk : (1 : ℚ) - 1/r * (1/r) * (1 - -dq * -dq) < 0
      · simp only [F.ltb_fin, decide_eq_true_eq, hk, if_true]
        constructor
        · intro _
          nlinarith [hk]
        · intro _
          trivial
      · simp only [F.ltb_fin, decide_eq_true_eq, hk, if_false]
        constructor
        · intro hcon
          exact absurd hcon (by simp)
        · intro hlt
          exact absurd hlt (by nlinarith [hk])
  · intro ix iy iz nx ny nz r v hI hN hr hsq hsome
    have hcs := cauchy_schwarz_unit ix iy iz nx ny nz hI hN
    set dq := ix*nx + iy*ny + iz*nz with hdq
    have habs : |dq| ≤ 1 := by nlinarith [abs_nonneg dq, sq_abs dq]
    have h1 : max dq (-1) = dq := max_eq_left (by linarith [(abs_le.mp habs).1])
    have h2 : min dq 1 = dq := min_eq_left (by linarith [(abs_le.mp habs).2])
    have hrne : r ≠ 0 := ne_of_gt hr
    unfold refract at hsome
    rw [Vec3.dot_fin, ← hdq, F.maxR_fin, F.minR_fin, h1, h2] at hsome
    by_cases h0 : 0 < dq
    · rw [if_pos h0] at hsq
      simp only [F.gtb_fin, decide_eq_true_eq, h0, if_true] at hsome
      have he : (F.fin r / F.fin 1 : F) = F.fin r := by
        rw [F.div_fin r one_ne_zero, div_one]
      rw [he] at hsome
      simp only [F.mul_fin, F.sub_fin] at hsome
      by_cases hk : (1 : ℚ) - r * r * (1 - dq * dq) < 0
      · simp only [F.ltb_fin, decide_eq_true_eq, hk, if_true] at hsome
        exact absurd hsome (by simp)
      · simp only [F.ltb_fin, decide_eq_true_eq, hk, if_false] at hsome
        have hks : F.sqrtF (F.fin (1 - r * r * (1 - dq * dq))) =
            F.fin (qSqrt (1 - r * r * (1 - dq * dq))) := by
          simp only [F.sqrtF, if_neg hk]
        rw [hks] at hsome
        set s := qSqrt (1 - r * r * (1 - dq * dq)) with hsdef
        have hsq' : s * s = 1 - r^2 * (1 - dq^2) := by
          rw [hsdef]
          have hre : (1 : ℚ) - r * r * (1 - dq * dq) = 1 - r^2*(1 - dq^2) := by ring
          rw [hre]
          linear_combination hsq
        simp only [Vec3.neg_mk, Vec3.smul_mk, Vec3.add_mk, F.neg_fin, F.mul_fin,
          F.sub_fin, F.add_fin, Option.some.injEq] at hsome
        subst hsome
        rw [hdq] at hsq'
        have hunit := refract_component_identity ix iy iz nx ny nz r s (-1) hI hN (by ring) hsq'
        have htanx := refract_tangential_identity ix iy iz nx ny nz r s (-1) hN
        have htany := refract_tangential_identity iy ix iz ny nx nz r s (-1) (by linarith [hN])
        have htanz := refract_tangential_identity iz ix iy nz nx ny r s (-1) (by linarith [hN])
        rw [if_pos h0]
        constructor
        · rw [Vec3.dot_fin]
          congr 1
          rw [hdq]
          linear_combination hunit
        · rw [Vec3.dot_fin, Vec3.dot_fin]
          simp only [Vec3.smul_mk, Vec3.sub_mk, F.mul_fin, F.sub_fin, Vec3.mk.injEq]
          refine ⟨?_, ?_, ?_⟩
          · congr 1
            rw [hdq]
            linear_combination htanx
          · congr 1
            rw [hdq]
            linear_combination htany
          · congr 1
            rw [hdq]
            linear_combination htanz
    · rw [if_neg h0] at hsq
      simp only [F.gtb_fin, decide_eq_true_eq, h0, if_false] at hsome
      rw [F.div_fin 1 hrne] at hsome
      simp only [F.neg_fin, F.mul_fin, F.sub_fin] at hsome
      by_cases hk : (1 : ℚ) - 1/r * (1/r) * (1 - -dq * -dq) < 0
      · simp only [F.ltb_fin, decide_eq_true_eq, hk, if_true] at hsome
        exact absurd hsome (by simp)
      · simp only [F.ltb_fin, decide_eq_true_eq, hk, if_false] at hsome
        have hks : F.sqrtF (F.fin (1 - 1/r * (1/r) * (1 - -dq * -dq))) =
            F.fin (qSqrt (1 - 1/r * (1/r) * (1 - -dq * -dq))) := by
          simp only [F.sqrtF, if_neg hk]
        rw [hks] at hsome
        have hkre : (1 : ℚ) - 1/r * (1/r) * (1 - -dq * -dq) = 1 - (1/r)^2*(1 - dq^2) := by
          ring
        rw [hkre] at hsome
        set s := qSqrt (1 - (1/r)^2 * (1 - dq^2)) with hsdef
        have hsq' : s * s = 1 - (1/r)^2 * (1 - dq^2) := by
          rw [hsdef]
          linear_combination hsq
        simp only [Vec3.neg_mk, Vec3.smul_mk, Vec3.add_mk, F.neg_fin, F.mul_fin,
          F.sub_fin, F.add_fin, Option.some.injEq] at hsome
        subst hsome
        rw [hdq] at hsq'
        have hunit := refract_component_identity ix iy iz nx ny nz (1/r) s 1 hI hN (by ring) hsq'
        have htanx := refract_tangential_identity ix iy iz nx ny nz (1/r) s 1 hN
        have htany := refract_tangential_identity iy ix iz ny nx nz (1/r) s 1 (by linarith [hN])
        have htanz := refract_tangential_identity iz ix iy nz nx ny (1/r) s 1 (by linarith [hN])
        rw [if_neg h0]
        constructor
        · rw [Vec3.dot_fin]
          congr 1
          rw [hdq]
          linear_combination hunit
        · rw [Vec3.dot_fin, Vec3.dot_fin]
          simp only [Vec3.smul_mk, Vec3.sub_mk, F.mul_fin, F.sub_fin, Vec3.mk.injEq]
          refine ⟨?_, ?_, ?_⟩
          · congr 1
            rw [hdq]
            linear_combination htanx
          · congr 1
            rw [hdq]
            linear_combination htany
          · congr 1
            rw [hdq]
            linear_combination htanz
  · intro ops objects light tm depth rd i normal htr hnone
    unfold refract_color_of
    rw [hnone]
    simp only [htr, if_true]

theorem refract_tir_spec_witness :
    refract ⟨F.fin (4/5), F.fin 0, F.fin (3/5)⟩ ⟨F.fin 0, F.fin 0, F.fin 1⟩
        (F.fin (3/2)) = none ∧
    Vec3.dot ⟨F.fin (4/5), F.fin 0, F.fin (3/5)⟩ ⟨F.fin (4/5), F.fin 0, F.fin (3/5)⟩ =
      F.fin 1 ∧
    refract_color_of (fun o d => cast_ray trivOps o d [] trivLight trivTM (0 + 1))
        ⟨F.fin (4/5), F.fin 0, F.fin (3/5)⟩ glassIntersect ⟨F.fin 0, F.fin 0, F.fin 1⟩ =
      cast_ray trivOps
        (offset_origin glassIntersect
          ((reflect ⟨F.fin (4/5), F.fin 0, F.fin (3/5)⟩ ⟨F.fin 0, F.fin 0, F.fin 1⟩).normalized))
        ((reflect ⟨F.fin (4/5), F.fin 0, F.fin (3/5)⟩ ⟨F.fin 0, F.fin 0, F.fin 1⟩).normalized)
        [] trivLight trivTM (0 + 1) :=
  ⟨(refract_tir_spec.1 (4/5) 0 (3/5) 0 0 1 (3/2) (by norm_num) (by norm_num)
      (by norm_num)).mpr (by norm_num),
   (refract_tir_spec.2.1 (3/5) 0 (4/5) 0 0 1 (4/3) ⟨F.fin (4/5), F.fin 0, F.fin (3/5)⟩
      (by norm_num) (by norm_num) (by norm_num) (by with_unfolding_all decide)
      (by with_unfolding_all decide)).1,
   refract_tir_spec.2.2 trivOps [] trivLight trivTM 0 ⟨F.fin (4/5), F.fin 0, F.fin (3/5)⟩
      glassIntersect ⟨F.fin 0, F.fin 0, F.fin 1⟩ (by with_unfolding_all decide)
      (by with_unfolding_all decide)⟩

theorem F.div_fin_zero (a : ℚ) :
    (F.fin a / F.fin 0 : F) =
      if a = 0 then F.nan else if 0 < a then F.pinf else F.ninf := rfl

theorem F.div_zero_neg {a : ℚ} (h : a < 0) : (F.fin a / F.fin 0 : F) = F.ninf := by
  rw [F.div_fin_zero, if_neg (ne_of_lt h), if_neg (not_lt_of_gt h)]

theorem F.div_zero_pos {a : ℚ} (h : 0 < a) : (F.fin a / F.fin 0 : F) = F.pinf := by
  rw [F.div_fin_zero, if_neg (ne_of_gt h), if_pos h]

theorem F.div_zero_zero {a : ℚ} (h : a = 0) : (F.fin a / F.fin 0 : F) = F.nan := by
  rw [F.div_fin_zero, if_pos h]

theorem slab_pair_eq (mn mx o d : ℚ) (h : mn ≤ mx) :
    swapIfGt (F.fin (mn - o) / F.fin d) (F.fin (mx - o) / F.fin d) =
      slabPairSpec (F.fin mn) (F.fin mx) (F.fin o) (F.fin d) := by
  unfold swapIfGt slabPairSpec
  simp only [F.sub_fin]
  rcases lt_trichotomy d 0 with hd | hd | hd
  · have hdne : d ≠ 0 := ne_of_lt hd
    simp only [F.div_fin _ hdne]
    have hle : (mx - o) / d ≤ (mn - o) / d :=
      div_le_div_of_nonpos_of_le (le_of_lt hd) (by linarith)
    have hcond : F.ltb (F.fin d) (F.fin 0) = true := by
      simp [F.ltb_fin, hd]
    rw [hcond]
    rcases eq_or_lt_of_le hle with heq | hlt
    · rw [heq]
      simp [F.gtb, F.ltb_fin]
    · simp [F.gtb, F.ltb_fin, hlt]
  · subst hd
    have hcond : F.ltb (F.fin 0) (F.fin 0) = false := by
      simp [F.ltb_fin]
    rw [hcond]
    rcases lt_trichotomy (mn - o) 0 with h1 | h1 | h1
    · rcases lt_trichotomy (mx - o) 0 with h2 | h2 | h2
      · rw [F.div_zero_neg h1, F.div_zero_neg h2]
        rfl
      · rw [F.div_zero_neg h1, F.div_zero_zero h2]
        rfl
      · rw [F.div_zero_neg h1, F.div_zero_pos h2]
        rfl
    · have h2 : ¬ (mx - o < 0) := by linarith
      rcases eq_or_lt_of_le (not_lt.mp h2) with h2e | h2p
      · rw [F.div_zero_zero h1, F.div_zero_zero h2e.symm]
        rfl
      · rw [F.div_zero_zero h1, F.div_zero_pos h2p]
        rfl
    · have h2 : 0 < mx - o := by linarith
      rw [F.div_zero_pos h1, F.div_zero_pos h2]
      rfl
  · have hdne : d ≠ 0 := ne_of_gt hd
    simp only [F.div_fin _ hdne]
    have hle : (mn - o) / d ≤ (mx - o) / d :=
      (div_le_div_iff_of_pos_right hd).mpr (by linarith)
    have hcond : F.ltb (F.fin d) (F.fin 0) = false := by
      simp [F.ltb_fin, not_lt_of_gt hd]
    rw [hcond]
    simp [F.gtb, F.ltb_fin, not_lt.mpr hle]

theorem Vec3.cdiv_mk (a b c x y z : F) :
    (Vec3.mk a b c / Vec3.mk x y z : Vec3) = ⟨a / x, b / y, c / z⟩ := rfl

theorem cube_enter_exit_spec (m : Material) (cx cy cz sz ox oy oz dx dy dz : ℚ)
    (hsz : 0 ≤ sz) :
    (Cube.mk ⟨F.fin cx, F.fin cy, F.fin cz⟩ (F.fin sz) m).t_enter
        ⟨F.fin ox, F.fin oy, F.fin oz⟩ ⟨F.fin dx, F.fin dy, F.fin dz⟩ =
      spec_entry (Cube.mk ⟨F.fin cx, F.fin cy, F.fin cz⟩ (F.fin sz) m)
        ⟨F.fin ox, F.fin oy, F.fin oz⟩ ⟨F.fin dx, F.fin dy, F.fin dz⟩ ∧
    (Cube.mk ⟨F.fin cx, F.fin cy, F.fin cz⟩ (F.fin sz) m).t_exit
        ⟨F.fin ox, F.fin oy, F.fin oz⟩ ⟨F.fin dx, F.fin dy, F.fin dz⟩ =
      spec_exit (Cube.mk ⟨F.fin cx, F.fin cy, F.fin cz⟩ (F.fin sz) m)
        ⟨F.fin ox, F.fin oy, F.fin oz⟩ ⟨F.fin dx, F.fin dy, F.fin dz⟩ := by
  have h1 : cx - sz*(1/2) ≤ cx + sz*(1/2) := by linarith
  have h2 : cy - sz*(1/2) ≤ cy + sz*(1/2) := by linarith
  have h3 : cz - sz*(1/2) ≤ cz + sz*(1/2) := by linarith
  have hx := slab_pair_eq (cx - sz*(1/2)) (cx + sz*(1/2)) ox dx h1
  have hy := slab_pair_eq (cy - sz*(1/2)) (cy + sz*(1/2)) oy dy h2
  have hz := slab_pair_eq (cz - sz*(1/2)) (cz + sz*(1/2)) oz dz h3
  constructor
  · unfold Cube.t_enter Cube.tpairs spec_entry
    simp only [Vec3.sub_mk, Vec3.add_mk, Vec3.cdiv_mk, F.mul_fin, F.sub_fin, F.add_fin]
    rw [hx, hy, hz]
  · unfold Cube.t_exit Cube.tpairs spec_exit
    simp only [Vec3.sub_mk, Vec3.add_mk, Vec3.cdiv_mk, F.mul_fin, F.sub_fin, F.add_fin]
    rw [hx, hy, hz]

/-- C5: the slab test reports a hit iff overall entry (max of per-axis
minima, per-axis pairs swapped when the direction component is negative,
per spec 4.1) is strictly less than overall exit (min of per-axis maxima)
AND exit > 0; and the returned distance is the entry when entry > 0, else
the exit (a ray starting inside the cube hits at the exit point). -/
theorem cube_slab_hit_characterization (c : Cube) (o d : Vec3)
    (cx cy cz sz ox oy oz dx dy dz : ℚ)
    (hc : c.center = ⟨F.fin cx, F.fin cy, F.fin cz⟩) (hs : c.size = F.fin sz)
    (hsz : 0 ≤ sz)
    (ho : o = ⟨F.fin ox, F.fin oy, F.fin oz⟩) (hd : d = ⟨F.fin dx, F.fin dy, F.fin dz⟩) :
    ((c.ray_intersect o d).is_intersecting = true ↔
      (F.ltb (spec_entry c o d) (spec_exit c o d) = true ∧
       F.gtb (spec_exit c o d) (F.fin 0) = true)) ∧
    ((c.ray_intersect o d).is_intersecting = true →
      (c.ray_intersect o d).distance =
        if F.gtb (spec_entry c o d) (F.fin 0) = true then spec_entry c o d
        else spec_exit c o d) := by
  rcases c with ⟨cc, cs, cm⟩
  simp only at hc hs
  subst hc hs ho hd
  obtain ⟨hen, hex⟩ := cube_enter_exit_spec cm cx cy cz sz ox oy oz dx dy dz hsz
  unfold Cube.ray_intersect
  rw [hen, hex]
  by_cases h : (F.ltb (spec_entry (Cube.mk ⟨F.fin cx, F.fin cy, F.fin cz⟩ (F.fin sz) cm)
      ⟨F.fin ox, F.fin oy, F.fin oz⟩ ⟨F.fin dx, F.fin dy, F.fin dz⟩)
    (spec_exit (Cube.mk ⟨F.fin cx, F.fin cy, F.fin cz⟩ (F.fin sz) cm)
      ⟨F.fin ox, F.fin oy, F.fin oz⟩ ⟨F.fin dx, F.fin dy, F.fin dz⟩) &&
    F.gtb (spec_exit (Cube.mk ⟨F.fin cx, F.fin cy, F.fin cz⟩ (F.fin sz) cm)
      ⟨F.fin ox, F.fin oy, F.fin oz⟩ ⟨F.fin dx, F.fin dy, F.fin dz⟩) (F.fin 0)) = true
  · simp only [h, if_true]
    rw [Bool.and_eq_true] at h
    constructor
    · simp [Intersect.new, h]
    · intro _
      by_cases hpos : F.gtb (spec_entry (Cube.mk ⟨F.fin cx, F.fin cy, F.fin cz⟩ (F.fin sz) cm)
          ⟨F.fin ox, F.fin oy, F.fin oz⟩ ⟨F.fin dx, F.fin dy, F.fin dz⟩) (F.fin 0) = true
      · simp [Intersect.new, hpos]
      · simp [Intersect.new, hpos]
  · simp only [h, if_false]
    rw [Bool.and_eq_true] at h
    constructor
    · simp only [Intersect.empty]
      constructor
      · intro hfalse
        exact absurd hfalse (by simp)
      · intro hcon
        exact absurd hcon h
    · intro hcon
      exact absurd hcon (by simp [Intersect.empty])

theorem cube_slab_hit_characterization_witness :
    (testCubeUnit.ray_intersect ⟨F.fin 0, F.fin 0, F.fin 5⟩
        ⟨F.fin 0, F.fin 0, F.fin (-1)⟩).is_intersecting = true ∧
    (testCubeUnit.ray_intersect ⟨F.fin 0, F.fin 0, F.fin 5⟩
        ⟨F.fin 0, F.fin 0, F.fin (-1)⟩).distance =
      (if F.gtb (spec_entry testCubeUnit ⟨F.fin 0, F.fin 0, F.fin 5⟩
            ⟨F.fin 0, F.fin 0, F.fin (-1)⟩) (F.fin 0) = true then
        spec_entry testCubeUnit ⟨F.fin 0, F.fin 0, F.fin 5⟩ ⟨F.fin 0, F.fin 0, F.fin (-1)⟩
      else
        spec_exit testCubeUnit ⟨F.fin 0, F.fin 0, F.fin 5⟩ ⟨F.fin 0, F.fin 0, F.fin (-1)⟩) :=
  ⟨(cube_slab_hit_characterization testCubeUnit ⟨F.fin 0, F.fin 0, F.fin 5⟩
      ⟨F.fin 0, F.fin 0, F.fin (-1)⟩ 0 0 0 1 0 0 5 0 0 (-1)
      (by with_unfolding_all rfl) (by with_unfolding_all rfl) (by norm_num)
      (by with_unfolding_all rfl) (by with_unfolding_all rfl)).1.mpr
    ⟨by with_unfolding_all decide, by with_unfolding_all decide⟩,
   (cube_slab_hit_characterization testCubeUnit ⟨F.fin 0, F.fin 0, F.fin 5⟩
      ⟨F.fin 0, F.fin 0, F.fin (-1)⟩ 0 0 0 1 0 0 5 0 0 (-1)
      (by with_unfolding_all rfl) (by with_unfolding_all rfl) (by norm_num)
      (by with_unfolding_all rfl) (by with_unfolding_all rfl)).2
    (by with_unfolding_all decide)⟩

theorem qSqrt_nonneg (q : ℚ) : 0 ≤ qSqrt q :=
  div_nonneg (Nat.cast_nonneg _) (Nat.cast_nonneg _)

/-- C10: for a ray whose origin lies strictly inside a sphere (c < 0, so
the smaller quadratic root is nonpositive while the larger root exits
forward), `Sphere::ray_intersect` returns the empty no-hit sentinel (shown
under an exactly-representable square root, matching the real `f32`
behavior) — unlike `Cube::ray_intersect`, which for an origin inside the
cube reports the exit intersection (`t = t_exit`). -/
theorem sphere_inside_no_hit_vs_cube :
    (∀ (ops : FloatOps) (s : Sphere) (o d : Vec3)
        (scx scy scz sr oxq oyq ozq dxq dyq dzq aq bq cq : ℚ),
      s.center = ⟨F.fin scx, F.fin scy, F.fin scz⟩ → s.radius = F.fin sr →
      o = ⟨F.fin oxq, F.fin oyq, F.fin ozq⟩ → d = ⟨F.fin dxq, F.fin dyq, F.fin dzq⟩ →
      aq = dxq*dxq + dyq*dyq + dzq*dzq →
      bq = 2*((oxq - scx)*dxq + (oyq - scy)*dyq + (ozq - scz)*dzq) →
      cq = (oxq - scx)*(oxq - scx) + (oyq - scy)*(oyq - scy) + (ozq - scz)*(ozq - scz)
        - sr*sr →
      0 < aq → cq < 0 →
      qSqrt (bq*bq - 4*aq*cq) * qSqrt (bq*bq - 4*aq*cq) = bq*bq - 4*aq*cq →
      Sphere.ray_intersect ops s o d = Intersect.empty) ∧
    ((testCube2.ray_intersect ⟨F.fin 0, F.fin 0, F.fin 0⟩
        ⟨F.fin 0, F.fin 0, F.fin 1⟩).is_intersecting = true ∧
     (testCube2.ray_intersect ⟨F.fin 0, F.fin 0, F.fin 0⟩
        ⟨F.fin 0, F.fin 0, F.fin 1⟩).distance = F.fin 1 ∧
     testCube2.t_exit ⟨F.fin 0, F.fin 0, F.fin 0⟩ ⟨F.fin 0, F.fin 0, F.fin 1⟩ = F.fin 1) := by
  constructor
  · intro ops s o d scx scy scz sr oxq oyq ozq dxq dyq dzq aq bq cq
      hsc hsr ho hd haq hbq hcq ha hc hsq
    rcases s with ⟨sc, srad, smat⟩
    simp only at hsc hsr
    subst hsc hsr ho hd
    unfold Sphere.ray_intersect Sphere.discriminant
    simp only [Vec3.sub_mk, F.sub_fin, Vec3.dot_fin, F.mul_fin, F.sub_fin]
    rw [← hbq, ← haq, ← hcq]
    have hDpos : 0 < bq*bq - 4*aq*cq := by
      nlinarith [sq_nonneg bq, mul_pos ha (neg_pos.mpr hc)]
    have hcond1 : (F.fin (bq*bq - 4*aq*cq)).gtb (F.fin 0) = true := by
      simp [F.gtb_fin, hDpos]
    have hs3 : (F.fin (bq*bq - 4*aq*cq)).sqrtF = F.fin (qSqrt (bq*bq - 4*aq*cq)) := by
      simp [F.sqrtF, not_lt.mpr hDpos.le]
    have hq0 : 0 ≤ qSqrt (bq*bq - 4*aq*cq) := qSqrt_nonneg _
    have hge : -bq ≤ qSqrt (bq*bq - 4*aq*cq) := by
      nlinarith [hsq, hq0, mul_pos ha (neg_pos.mpr hc),
        sq_nonneg (qSqrt (bq*bq - 4*aq*cq) + bq), sq_nonneg (qSqrt (bq*bq - 4*aq*cq) - bq)]
    have ha2 : (2*aq : ℚ) ≠ 0 := by positivity
    have ht : (-bq - qSqrt (bq*bq - 4*aq*cq)) / (2*aq) ≤ 0 :=
      div_nonpos_of_nonpos_of_nonneg (by linarith) (by linarith)
    rw [hcond1, hs3, F.neg_fin, F.sub_fin, F.div_fin _ ha2]
    have hcond2 : (F.fin ((-bq - qSqrt (bq*bq - 4*aq*cq)) / (2*aq))).gtb (F.fin 0) = false := by
      simp [F.gtb_fin, not_lt.mpr ht]
    rw [hcond2]
    simp
  · refine ⟨?_, ?_, ?_⟩ <;> with_unfolding_all decide

theorem sphere_inside_no_hit_vs_cube_witness :
    Sphere.ray_intersect trivOps testSphereUnit ⟨F.fin 0, F.fin 0, F.fin (1/2)⟩
        ⟨F.fin 0, F.fin 0, F.fin 1⟩ = Intersect.empty :=
  sphere_inside_no_hit_vs_cube.1 trivOps testSphereUnit
    ⟨F.fin 0, F.fin 0, F.fin (1/2)⟩ ⟨F.fin 0, F.fin 0, F.fin 1⟩
    0 0 0 1 0 0 (1/2) 0 0 1 1 1 (-3/4)
    (by with_unfolding_all rfl) (by with_unfolding_all rfl)
    (by with_unfolding_all rfl) (by with_unfolding_all rfl)
    (by norm_num) (by norm_num) (by norm_num) (by norm_num) (by norm_num)
    (by with_unfolding_all decide)

theorem F.minR_nf_left (a b : F) (h : a = F.ninf ∨ ∃ q, a = F.fin q) :
    F.minR a b = F.ninf ∨ ∃ q, F.minR a b = F.fin q := by
  rcases h with h | ⟨q, h⟩ <;> subst h <;> cases b <;>
    simp [F.minR, F.ltb] <;> split_ifs <;> simp

theorem F.minR_nf_right (a b : F) (h : b = F.ninf ∨ ∃ q, b = F.fin q) :
    F.minR a b = F.ninf ∨ ∃ q, F.minR a b = F.fin q := by
  rcases h with h | ⟨q, h⟩ <;> subst h <;> cases a <;>
    simp [F.minR, F.ltb] <;> split_ifs <;> simp

theorem F.min3_nf (mx my mz : F)
    (h : (∃ q, mx = F.fin q) ∨ (∃ q, my = F.fin q) ∨ (∃ q, mz = F.fin q)) :
    F.minR (F.minR mx my) mz = F.ninf ∨ ∃ q, F.minR (F.minR mx my) mz = F.fin q := by
  rcases h with ⟨q, h⟩ | ⟨q, h⟩ | ⟨q, h⟩
  · exact F.minR_nf_left _ _ (F.minR_nf_left _ _ (Or.inr ⟨q, h⟩))
  · exact F.minR_nf_left _ _ (F.minR_nf_right _ _ (Or.inr ⟨q, h⟩))
  · exact F.minR_nf_right _ _ (Or.inr ⟨q, h⟩)

theorem F.fin_of_nf_pos {x : F} (hnf : x = F.ninf ∨ ∃ q, x = F.fin q)
    (hpos : F.gtb x (F.fin 0) = true) : ∃ q : ℚ, x = F.fin q ∧ 0 < q := by
  rcases hnf with h | ⟨q, h⟩ <;> subst h
  · simp [F.gtb, F.ltb] at hpos
  · refine ⟨q, rfl, ?_⟩
    simpa [F.gtb, F.ltb_fin] using hpos

theorem F.nf_of_ltb_fin {x : F} {q : ℚ} (h : F.ltb x (F.fin q) = true) :
    x = F.ninf ∨ ∃ p, x = F.fin p := by
  cases x <;> simp_all [F.ltb]

theorem swapIfGt_fin (a b : ℚ) :
    ∃ u v : ℚ, swapIfGt (F.fin a) (F.fin b) = (F.fin u, F.fin v) := by
  unfold swapIfGt
  split_ifs
  · exact ⟨b, a, rfl⟩
  · exact ⟨a, b, rfl⟩

theorem cube_hit_dist_fin (c : Cube) (o d : Vec3)
    (cx cy cz sz ox oy oz dx dy dz : ℚ)
    (hc : c.center = ⟨F.fin cx, F.fin cy, F.fin cz⟩) (hs : c.size = F.fin sz)
    (ho : o = ⟨F.fin ox, F.fin oy, F.fin oz⟩) (hd : d = ⟨F.fin dx, F.fin dy, F.fin dz⟩)
    (hnz : ¬(dx = 0 ∧ dy = 0 ∧ dz = 0))
    (hit : (c.ray_intersect o d).is_intersecting = true) :
    ∃ q : ℚ, (c.ray_intersect o d).distance = F.fin q := by
  rcases c with ⟨cc, cs, cm⟩
  simp only at hc hs
  subst hc hs ho hd
  by_cases hcnd : (F.ltb (Cube.t_enter ⟨⟨F.fin cx, F.fin cy, F.fin cz⟩, F.fin sz, cm⟩
        ⟨F.fin ox, F.fin oy, F.fin oz⟩ ⟨F.fin dx, F.fin dy, F.fin dz⟩)
      (Cube.t_exit ⟨⟨F.fin cx, F.fin cy, F.fin cz⟩, F.fin sz, cm⟩
        ⟨F.fin ox, F.fin oy, F.fin oz⟩ ⟨F.fin dx, F.fin dy, F.fin dz⟩) &&
      F.gtb (Cube.t_exit ⟨⟨F.fin cx, F.fin cy, F.fin cz⟩, F.fin sz, cm⟩
        ⟨F.fin ox, F.fin oy, F.fin oz⟩ ⟨F.fin dx, F.fin dy, F.fin dz⟩) (F.fin 0)) = true
  · -- hit branch: distance is the selected t
    have hxnf : Cube.t_exit ⟨⟨F.fin cx, F.fin cy, F.fin cz⟩, F.fin sz, cm⟩
        ⟨F.fin ox, F.fin oy, F.fin oz⟩ ⟨F.fin dx, F.fin dy, F.fin dz⟩ = F.ninf ∨
        ∃ q, Cube.t_exit ⟨⟨F.fin cx, F.fin cy, F.fin cz⟩, F.fin sz, cm⟩
          ⟨F.fin ox, F.fin oy, F.fin oz⟩ ⟨F.fin dx, F.fin dy, F.fin dz⟩ = F.fin q := by
      unfold Cube.t_exit Cube.tpairs
      simp only [Vec3.sub_mk, Vec3.add_mk, Vec3.cdiv_mk, F.mul_fin, F.sub_fin, F.add_fin]
      apply F.min3_nf
      rcases not_and_or.mp hnz with h | h
      · left
        obtain ⟨u, v, huv⟩ := swapIfGt_fin ((cx - sz * (1/2) - ox) / dx)
          ((cx + sz * (1/2) - ox) / dx)
        rw [F.div_fin _ h, F.div_fin _ h, huv]
        exact ⟨v, rfl⟩
      rcases not_and_or.mp h with h | h
      · right; left
        obtain ⟨u, v, huv⟩ := swapIfGt_fin ((cy - sz * (1/2) - oy) / dy)
          ((cy + sz * (1/2) - oy) / dy)
        rw [F.div_fin _ h, F.div_fin _ h, huv]
        exact ⟨v, rfl⟩
      · right; right
        obtain ⟨u, v, huv⟩ := swapIfGt_fin ((cz - sz * (1/2) - oz) / dz)
          ((cz + sz * (1/2) - oz) / dz)
        rw [F.div_fin _ h, F.div_fin _ h, huv]
        exact ⟨v, rfl⟩
    have hcnd0 := hcnd
    rw [Bool.and_eq_true] at hcnd
    obtain ⟨qx, hqx, hqxpos⟩ := F.fin_of_nf_pos hxnf hcnd.2
    have henf := F.nf_of_ltb_fin (hqx ▸ hcnd.1)
    unfold Cube.ray_intersect
    simp only [hcnd0, if_true, Intersect.new]
    rcases henf with he | ⟨qn, hqn⟩
    · rw [he, hqx]
      refine ⟨qx, ?_⟩
      simp [F.gtb, F.ltb]
    · rw [hqn, hqx]
      by_cases h0 : (0 : ℚ) < qn
      · refine ⟨qn, ?_⟩
        simp [F.gtb, F.ltb_fin, h0]
      · refine ⟨qx, ?_⟩
        simp [F.gtb, F.ltb_fin, h0]
  · unfold Cube.ray_intersect at hit
    simp only [hcnd, if_false] at hit
    exact absurd hit (by simp [Intersect.empty])

theorem scanHit_append_singleton (ro rd : Vec3) (l : List Cube) (c : Cube) :
    scanHit (l ++ [c]) ro rd = scanStep ro rd (scanHit l ro rd) c := by
  unfold scanHit
  rw [List.foldl_append]
  rfl

theorem scan_spec (ro rd : Vec3) :
    ∀ l : List Cube,
      (∀ c ∈ l, (c.ray_intersect ro rd).is_intersecting = true →
        ∃ q : ℚ, (c.ray_intersect ro rd).distance = F.fin q) →
      ((∀ c ∈ l, (c.ray_intersect ro rd).is_intersecting = false) ∧
        scanHit l ro rd = (Intersect.empty, F.pinf)) ∨
      (∃ l1 c l2, l = l1 ++ c :: l2 ∧
        (c.ray_intersect ro rd).is_intersecting = true ∧
        scanHit l ro rd = (c.ray_intersect ro rd, (c.ray_intersect ro rd).distance) ∧
        (∀ e ∈ l, (e.ray_intersect ro rd).is_intersecting = true →
          F.leb ((c.ray_intersect ro rd).distance)
            ((e.ray_intersect ro rd).distance) = true) ∧
        (∀ e ∈ l1, (e.ray_intersect ro rd).is_intersecting = true →
          F.ltb ((c.ray_intersect ro rd).distance)
            ((e.ray_intersect ro rd).distance) = true)) := by
  intro l
  induction l using List.reverseRecOn with
  | nil =>
      intro _
      left
      exact ⟨by simp, rfl⟩
  | append_singleton l' c ih =>
      intro hfin
      have hfin' : ∀ e ∈ l', (e.ray_intersect ro rd).is_intersecting = true →
          ∃ q : ℚ, (e.ray_intersect ro rd).distance = F.fin q := fun e he =>
        hfin e (List.mem_append_left _ he)
      rcases ih hfin' with ⟨hnone, hacc⟩ | ⟨l1, c0, l2, hsplit, hval, hacc, hmin, hstrict⟩
      · by_cases hv : (c.ray_intersect ro rd).is_intersecting = true
        · right
          obtain ⟨q, hq⟩ := hfin c (by simp) hv
          refine ⟨l', c, [], by simp, hv, ?_, ?_, ?_⟩
          · rw [scanHit_append_singleton, hacc]
            unfold scanStep
            simp [hv, hq, F.ltb]
          · intro e he hev
            rcases List.mem_append.mp he with he' | he'
            · exact absurd hev (by simp [hnone e he'])
            · have heq : e = c := List.mem_singleton.mp he'
              subst heq
              rw [hq]
              simp [F.leb_fin]
          · intro e he' hev
            exact absurd hev (by simp [hnone e he'])
        · left
          constructor
          · intro e he
            rcases List.mem_append.mp he with he' | he'
            · exact hnone e he'
            · have heq : e = c := List.mem_singleton.mp he'
              subst heq
              simpa using hv
          · rw [scanHit_append_singleton, hacc]
            unfold scanStep
            have hv' : (c.ray_intersect ro rd).is_intersecting = false := by
              simpa using hv
            simp [hv']
      · obtain ⟨q0, hq0⟩ := hfin c0 (by rw [hsplit]; simp) hval
        by_cases hv : (c.ray_intersect ro rd).is_intersecting = true
        · obtain ⟨q, hq⟩ := hfin c (by simp) hv
          by_cases hlt : q < q0
          · right
            refine ⟨l', c, [], by simp, hv, ?_, ?_, ?_⟩
            · rw [scanHit_append_singleton, hacc]
              unfold scanStep
              simp [hv, hq, hq0, F.ltb_fin, hlt]
            · intro e he hev
              rcases List.mem_append.mp he with he' | he'
              · obtain ⟨qe, hqe⟩ := hfin' e he' hev
                have h1 := hmin e he' hev
                rw [hq0, hqe] at h1
                rw [hq, hqe]
                simp only [F.leb_fin, decide_eq_true_eq] at h1 ⊢
                linarith
              · have heq : e = c := List.mem_singleton.mp he'
                subst heq
                rw [hq]
                simp [F.leb_fin]
            · intro e he' hev
              obtain ⟨qe, hqe⟩ := hfin' e he' hev
              have h1 := hmin e he' hev
              rw [hq0, hqe] at h1
              rw [hq, hqe]
              simp only [F.leb_fin, decide_eq_true_eq] at h1
              simp only [F.ltb_fin, decide_eq_true_eq]
              linarith
          · right
            refine ⟨l1, c0, l2 ++ [c], by rw [hsplit]; simp, hval, ?_, ?_, ?_⟩
            · rw [scanHit_append_singleton, hacc]
              unfold scanStep
              simp [hv, hq, hq0, F.ltb_fin, hlt]
            · intro e he hev
              rcases List.mem_append.mp he with he' | he'
              · exact hmin e he' hev
              · have heq : e = c := List.mem_singleton.mp he'
                subst heq
                rw [hq0, hq]
                simp only [F.leb_fin, decide_eq_true_eq]
                linarith [not_lt.mp hlt]
            · intro e he' hev
              exact hstrict e he' hev
        · right
          refine ⟨l1, c0, l2 ++ [c], by rw [hsplit]; simp, hval, ?_, ?_, ?_⟩
          · rw [scanHit_append_singleton, hacc]
            unfold scanStep
            have hv' : (c.ray_intersect ro rd).is_intersecting = false := by
              simpa using hv
            simp [hv']
          · intro e he hev
            rcases List.mem_append.mp he with he' | he'
            · exact hmin e he' hev
            · have heq : e = c := List.mem_singleton.mp he'
              subst heq
              exact absurd hev hv
          · intro e he' hev
            exact hstrict e he' hev

/-- C2: for every well-formed scene (cubes and ray with finite components,
direction not the zero vector) the nearest-hit scan of `cast_ray` — a
linear scan with the running best distance seeded at `+inf` — selects the
valid intersection of smallest distance, an exact tie going to the
first-encountered object (every earlier valid hit is strictly farther);
and when no object reports a hit, `cast_ray` returns the environment
(skybox) color of the ray direction. -/
theorem cast_ray_nearest_hit (ops : FloatOps) (tm : TextureManager) (light : Light)
    (objects : List Cube) (ro rd : Vec3) (depth : Nat)
    (hobj : ∀ cu ∈ objects, ∃ ccx ccy ccz csz : ℚ,
      cu.center = ⟨F.fin ccx, F.fin ccy, F.fin ccz⟩ ∧ cu.size = F.fin csz)
    (ho : ∃ a b c : ℚ, ro = ⟨F.fin a, F.fin b, F.fin c⟩)
    (hd : ∃ a b c : ℚ, rd = ⟨F.fin a, F.fin b, F.fin c⟩ ∧ ¬(a = 0 ∧ b = 0 ∧ c = 0)) :
    ((∀ cu ∈ objects, (cu.ray_intersect ro rd).is_intersecting = false) →
      cast_ray ops ro rd objects light tm depth = skybox_color ops rd tm) ∧
    ((∃ cu ∈ objects, (cu.ray_intersect ro rd).is_intersecting = true) →
      ∃ l1 cu l2, objects = l1 ++ cu :: l2 ∧
        (cu.ray_intersect ro rd).is_intersecting = true ∧
        (scanHit objects ro rd).1 = cu.ray_intersect ro rd ∧
        (∀ e ∈ objects, (e.ray_intersect ro rd).is_intersecting = true →
          F.leb ((cu.ray_intersect ro rd).distance)
            ((e.ray_intersect ro rd).distance) = true) ∧
        (∀ e ∈ l1, (e.ray_intersect ro rd).is_intersecting = true →
          F.ltb ((cu.ray_intersect ro rd).distance)
            ((e.ray_intersect ro rd).distance) = true)) := by
  obtain ⟨oa, ob, oc, hoe⟩ := ho
  obtain ⟨da, db, dc, hde, hdnz⟩ := hd
  have hfin : ∀ cu ∈ objects, (cu.ray_intersect ro rd).is_intersecting = true →
      ∃ q : ℚ, (cu.ray_intersect ro rd).distance = F.fin q := by
    intro cu hcu hv
    obtain ⟨ccx, ccy, ccz, csz, hcc, hcs⟩ := hobj cu hcu
    exact cube_hit_dist_fin cu ro rd ccx ccy ccz csz oa ob oc da db dc
      hcc hcs hoe hde hdnz hv
  constructor
  · intro hall
    by_cases hdep : 3 < depth
    · rw [cast_ray.eq_def]
      simp [hdep]
    · rw [cast_ray.eq_def]
      simp only [hdep, dite_false]
      unfold castRayBody
      rcases scan_spec ro rd objects hfin with ⟨_, hscan⟩ | ⟨l1, cu, l2, hsplit, hval, _, _, _⟩
      · rw [hscan]
        simp [Intersect.empty]
      · exact absurd hval (by simp [hall cu (by rw [hsplit]; simp)])
  · intro ⟨cu0, hcu0, hv0⟩
    rcases scan_spec ro rd objects hfin with ⟨hnone, _⟩ | ⟨l1, cu, l2, hsplit, hval, hscan, hmin, hstrict⟩
    · exact absurd hv0 (by simp [hnone cu0 hcu0])
    · refine ⟨l1, cu, l2, hsplit, hval, ?_, hmin, hstrict⟩
      rw [hscan]

theorem cast_ray_nearest_hit_witness :
    ∃ l1 cu l2, [testCube2] = l1 ++ cu :: l2 ∧
      (cu.ray_intersect ⟨F.fin 0, F.fin 0, F.fin 5⟩
        ⟨F.fin 0, F.fin 0, F.fin (-1)⟩).is_intersecting = true ∧
      (scanHit [testCube2] ⟨F.fin 0, F.fin 0, F.fin 5⟩ ⟨F.fin 0, F.fin 0, F.fin (-1)⟩).1 =
        cu.ray_intersect ⟨F.fin 0, F.fin 0, F.fin 5⟩ ⟨F.fin 0, F.fin 0, F.fin (-1)⟩ ∧
      (∀ e ∈ [testCube2], (e.ray_intersect ⟨F.fin 0, F.fin 0, F.fin 5⟩
          ⟨F.fin 0, F.fin 0, F.fin (-1)⟩).is_intersecting = true →
        F.leb ((cu.ray_intersect ⟨F.fin 0, F.fin 0, F.fin 5⟩
            ⟨F.fin 0, F.fin 0, F.fin (-1)⟩).distance)
          ((e.ray_intersect ⟨F.fin 0, F.fin 0, F.fin 5⟩
            ⟨F.fin 0, F.fin 0, F.fin (-1)⟩).distance) = true) ∧
      (∀ e ∈ l1, (e.ray_intersect ⟨F.fin 0, F.fin 0, F.fin 5⟩
          ⟨F.fin 0, F.fin 0, F.fin (-1)⟩).is_intersecting = true →
        F.ltb ((cu.ray_intersect ⟨F.fin 0, F.fin 0, F.fin 5⟩
            ⟨F.fin 0, F.fin 0, F.fin (-1)⟩).distance)
          ((e.ray_intersect ⟨F.fin 0, F.fin 0, F.fin 5⟩
            ⟨F.fin 0, F.fin 0, F.fin (-1)⟩).distance) = true) :=
  (cast_ray_nearest_hit trivOps trivTM trivLight [testCube2]
      ⟨F.fin 0, F.fin 0, F.fin 5⟩ ⟨F.fin 0, F.fin 0, F.fin (-1)⟩ 0
      (by
        intro cu hcu
        rw [List.mem_singleton.mp hcu]
        exact ⟨0, 0, 0, 2, by with_unfolding_all rfl, by with_unfolding_all rfl⟩)
      ⟨0, 0, 5, rfl⟩
      ⟨0, 0, -1, rfl, by norm_num⟩).2
    ⟨testCube2, by simp, by with_unfolding_all decide⟩
